import Mathlib

/-!
Verification development for the PIQP proximal interior-point QP solver core
(`solver.hpp`).  The driver `solve_impl`, its residual computation
`update_nr_residuals`, the box-bound setup `setup_lb_data` / `setup_ub_data`,
the post-processing `unscale_results` / `restore_box_dual` and the public
`solve` wrapper are shallowly embedded over exact rationals.

Modelling conventions:
* vectors are total functions `ℕ → ℚ`; a vector of logical length `k` is
  meaningful on indices `< k` (mirroring Eigen head views, guarded updates
  are used exactly where the C++ writes through a `.head(k)` view of a
  longer array);
* the KKT operator (`kkt.hpp`, not part of the sources) is abstracted as an
  oracle: `kktFact : ℕ → Bool` gives the outcome of the i-th `factorize()`
  call and `kktSolve : ℕ → Rhs → Sol` the output of the i-th `solve` call;
* the preconditioner (`preconditioner.hpp`, not part of the sources) is a
  record of abstract `unscale_*` maps, applied to the full function with the
  infinity norm taken over the logical length;
* the IEEE `+inf` used to fill slack tails in `restore_box_dual` has no
  rational counterpart and is abstracted as the environment constant `sInf`;
* `update_scalings` stages its arguments; the staged values are recorded in
  ghost fields `staged_*` of the state so that "set before update_scalings"
  claims are expressible.
-/

namespace Piqp

abbrev Vec := ℕ → ℚ

abbrev Mat := ℕ → ℕ → ℚ

/-- The infinity sentinel `PIQP_INF = 1e30` from `piqp.h`. -/
def PIQP_INF : ℚ := 10 ^ 30

/-- Infinity norm over the first `k` entries (0 when `k = 0`, as for an
empty Eigen vector). -/
def infNorm (v : Vec) (k : ℕ) : ℚ :=
  (List.range k).foldr (fun i acc => max |v i| acc) 0

/-- Truncate a function vector to its logical length: an Eigen vector (or
head view) of length `k` contains exactly the entries below `k`, so this
is applied to every argument handed to the abstract preconditioner. -/
def headVec (v : Vec) (k : ℕ) : Vec :=
  fun i => if i < k then v i else 0

/-- Dot product over the first `k` entries. -/
def dotN (v w : Vec) (k : ℕ) : ℚ :=
  ∑ i ∈ Finset.range k, v i * w i

/-- Sum of the first `k` entries. -/
def sumN (v : Vec) (k : ℕ) : ℚ :=
  ∑ i ∈ Finset.range k, v i

/-- Minimum coefficient over the first `k` entries (`v 0` for `k = 0`;
the source only calls `minCoeff` behind a positive-size guard). -/
def minCoeffN (v : Vec) (k : ℕ) : ℚ :=
  (List.range k).foldr (fun i acc => min (v i) acc) (v 0)

/-- Overwrite the first `k` entries with the constant `c`
(an Eigen `head(k).setConstant(c)`). -/
def setHead (v : Vec) (k : ℕ) (c : ℚ) : Vec :=
  fun i => if i < k then c else v i

/-- `M * v` where `M` has `k` columns. -/
def mulMatVec (M : Mat) (k : ℕ) (v : Vec) : Vec :=
  fun i => ∑ j ∈ Finset.range k, M i j * v j

/-- `Mᵀ * v` where `M` has `k` rows (so the sum ranges over those rows). -/
def mulMatTVec (M : Mat) (k : ℕ) (v : Vec) : Vec :=
  fun i => ∑ j ∈ Finset.range k, M j i * v j

/-- The strictly lower triangular part of `Mᵀ`
(Eigen `M.transpose().triangularView<StrictlyLower>()`). -/
def strictLowT (M : Mat) : Mat :=
  fun i j => if j < i then M j i else 0

/-- Sequential scatter: starting from the zero vector, write `v j` to
position `idx j` for `j = 0, …, k-1` in order (later writes win), exactly
like the `dx.setZero(); for … dx(idx(i)) = v(i)` loops of the source. -/
def scatterV (idx : ℕ → ℕ) (k : ℕ) (v : Vec) : Vec :=
  fun i => (List.range k).foldl (fun acc j => if idx j = i then v j else acc) 0

/-- Scatter as a sum, i.e. the action of the transposed selection matrix
with rows `e_(idx j)`: position `i` receives `∑ {j < k | idx j = i} v j`. -/
def specScatter (idx : ℕ → ℕ) (k : ℕ) (v : Vec) : Vec :=
  fun i => ∑ j ∈ Finset.range k, if idx j = i then v j else 0

/-- The full symmetric matrix reconstructed from a stored upper triangle,
as the source uses it: `P_utri + strictlyLower(P_utriᵀ)`. -/
def Pfull (M : Mat) : Mat :=
  fun i j => M i j + strictLowT M i j

/-- Solver status, `Status` of `results.hpp` (names as in the spec). -/
inductive Status where
  | UNSOLVED
  | SOLVED
  | MAX_ITER_REACHED
  | PRIMAL_INFEASIBLE
  | DUAL_INFEASIBLE
  | NUMERICS
  | INVALID_SETTINGS
deriving DecidableEq

/-- The settings consumed by `solve_impl`.  `verify` is the Boolean outcome
of `verify_settings()` (its body lives in `settings.hpp`, outside the
sources, so only its result is modelled). -/
structure Settings where
  rho_init : ℚ
  delta_init : ℚ
  max_iter : ℕ
  max_factor_retires : ℕ
  reg_lower_limit : ℚ
  feas_tol_abs : ℚ
  feas_tol_rel : ℚ
  dual_tol : ℚ
  tau : ℚ
  verify : Bool

/-- The problem data store (`dense::Data` / `sparse::Data` as seen by the
driver): `P_utri` is the stored upper triangle, `AT`/`GT` the stored
transposes, and the box bounds are the compressed value/index arrays. -/
structure Data where
  n : ℕ
  p : ℕ
  m : ℕ
  n_lb : ℕ
  n_ub : ℕ
  P_utri : Mat
  AT : Mat
  GT : Mat
  c : Vec
  b : Vec
  h : Vec
  x_lb_n : Vec
  x_ub : Vec
  x_lb_idx : ℕ → ℕ
  x_ub_idx : ℕ → ℕ

/-- The abstract preconditioner: the `unscale_*` maps the driver calls. -/
structure Precond where
  unscale_primal : Vec → Vec
  unscale_dual_eq : Vec → Vec
  unscale_dual_ineq : Vec → Vec
  unscale_dual_lb : Vec → Vec
  unscale_dual_ub : Vec → Vec
  unscale_slack_ineq : Vec → Vec
  unscale_slack_lb : Vec → Vec
  unscale_slack_ub : Vec → Vec
  unscale_primal_res_eq : Vec → Vec
  unscale_primal_res_ineq : Vec → Vec
  unscale_primal_res_lb : Vec → Vec
  unscale_primal_res_ub : Vec → Vec
  unscale_dual_res : Vec → Vec

/-- Right-hand side of a KKT solve (8 blocks). -/
structure Rhs where
  rx : Vec
  ry : Vec
  rz : Vec
  rz_lb : Vec
  rz_ub : Vec
  rs : Vec
  rs_lb : Vec
  rs_ub : Vec

/-- Output of a KKT solve (8 blocks). -/
structure Sol where
  x : Vec
  y : Vec
  z : Vec
  z_lb : Vec
  z_ub : Vec
  s : Vec
  s_lb : Vec
  s_ub : Vec

/-- The fixed environment of one solver object: data, settings,
preconditioner, the KKT oracle, and the slack-tail fill constant standing
for IEEE `+inf`. -/
structure Env where
  data : Data
  set : Settings
  pre : Precond
  kktFact : ℕ → Bool
  kktSolve : ℕ → Rhs → Sol
  sInf : ℚ

/-- `Result.info` fields the driver reads or writes. -/
structure Info where
  status : Status
  iter : ℕ
  rho : ℚ
  delta : ℚ
  mu : ℚ
  sigma : ℚ
  primal_step : ℚ
  dual_step : ℚ
  primal_inf : ℚ
  dual_inf : ℚ
  reg_limit : ℚ
  factor_retires : ℕ
  no_primal_update : ℕ
  no_dual_update : ℕ

/-- The full mutable solver state: result vectors, proximal centres,
residual and direction workspaces, info block, the running relative-norm
maxima, the object flags, the KKT oracle call counters, and the ghost
record of the last staged `update_scalings` arguments. -/
structure SState where
  x : Vec
  y : Vec
  z : Vec
  z_lb : Vec
  z_ub : Vec
  s : Vec
  s_lb : Vec
  s_ub : Vec
  zeta : Vec
  lambda : Vec
  nu : Vec
  nu_lb : Vec
  nu_ub : Vec
  rx : Vec
  ry : Vec
  rz : Vec
  rz_lb : Vec
  rz_ub : Vec
  rs : Vec
  rs_lb : Vec
  rs_ub : Vec
  rx_nr : Vec
  ry_nr : Vec
  rz_nr : Vec
  rz_lb_nr : Vec
  rz_ub_nr : Vec
  dx : Vec
  dy : Vec
  dz : Vec
  dz_lb : Vec
  dz_ub : Vec
  ds : Vec
  ds_lb : Vec
  ds_ub : Vec
  info : Info
  primal_rel_inf : ℚ
  dual_rel_inf : ℚ
  kkt_init_state : Bool
  setup_done : Bool
  nFact : ℕ
  nSolve : ℕ
  staged_rho : ℚ
  staged_delta : ℚ
  staged_s : Vec
  staged_s_lb : Vec
  staged_s_ub : Vec
  staged_z : Vec
  staged_z_lb : Vec
  staged_z_ub : Vec

/-- Set `info.status` (the assignment done at every return site). -/
def setStatus (st : SState) (s : Status) : SState :=
  {st with info := {st.info with status := s}}

/-- The values produced by one run of `update_nr_residuals`: the five
non-regularised residual vectors, the final content of the `dx` scratch
vector, and the two relative-norm running maxima. -/
structure NR where
  rx : Vec
  ry : Vec
  rz : Vec
  rz_lb : Vec
  rz_ub : Vec
  dxFinal : Vec
  pri : ℚ
  dri : ℚ

/-- `update_nr_residuals` (solver.hpp lines 737-788), as a pure function of
the current iterate.  The sequential accumulation into `rx_nr` / `dx` and
the interleaved running maxima `dual_rel_inf` / `primal_rel_inf` follow
the source statement by statement; the compressed residual rows `rz_lb`,
`rz_ub` are returned as their written heads (caller re-attaches the stale
tail of the length-`n` array). -/
def nrOf (e : Env) (x y z z_lb z_ub s s_lb s_ub : Vec) : NR :=
  let d := e.data
  let a1 : Vec := fun i =>
    -(mulMatVec d.P_utri d.n x i) - mulMatVec (strictLowT d.P_utri) d.n x i
  let dri1 := infNorm (e.pre.unscale_dual_res (headVec a1 d.n)) d.n
  let a2 : Vec := fun i => a1 i - d.c i
  let t1 : Vec := mulMatVec d.AT d.p y
  let dri2 := max dri1 (infNorm (e.pre.unscale_dual_res (headVec t1 d.n)) d.n)
  let a3 : Vec := fun i => a2 i - t1 i
  let t2 : Vec := mulMatVec d.GT d.m z
  let dri3 := max dri2 (infNorm (e.pre.unscale_dual_res (headVec t2 d.n)) d.n)
  let a4 : Vec := fun i => a3 i - t2 i
  let t3 : Vec := scatterV d.x_lb_idx d.n_lb (fun j => -(z_lb j))
  let dri4 := max dri3 (infNorm (e.pre.unscale_dual_res (headVec t3 d.n)) d.n)
  let a5 : Vec := fun i => a4 i - t3 i
  let t4 : Vec := scatterV d.x_ub_idx d.n_ub z_ub
  let dri5 := max dri4 (infNorm (e.pre.unscale_dual_res (headVec t4 d.n)) d.n)
  let rxv : Vec := fun i => a5 i - t4 i
  let b1 : Vec := fun i => -(mulMatTVec d.AT d.n x i)
  let pri1 := infNorm (e.pre.unscale_primal_res_eq (headVec b1 d.p)) d.p
  let ryv : Vec := fun i => b1 i + d.b i
  let pri2 := max pri1 (infNorm (e.pre.unscale_primal_res_eq (headVec d.b d.p)) d.p)
  let c1 : Vec := fun i => -(mulMatTVec d.GT d.n x i)
  let pri3 := max pri2 (infNorm (e.pre.unscale_primal_res_ineq (headVec c1 d.m)) d.m)
  let rzv : Vec := fun i => c1 i + (d.h i - s i)
  let pri4 := max pri3 (infNorm (e.pre.unscale_primal_res_ineq (headVec d.h d.m)) d.m)
  let rzlbv : Vec := headVec (fun i => x (d.x_lb_idx i) + d.x_lb_n i - s_lb i) d.n_lb
  let pri5 := max pri4 (infNorm (e.pre.unscale_primal_res_lb rzlbv) d.n_lb)
  let pri6 := max pri5 (infNorm (e.pre.unscale_primal_res_lb (headVec d.x_lb_n d.n_lb)) d.n_lb)
  let rzubv : Vec := headVec (fun i => -(x (d.x_ub_idx i)) + d.x_ub i - s_ub i) d.n_ub
  let pri7 := max pri6 (infNorm (e.pre.unscale_primal_res_ub rzubv) d.n_ub)
  let pri8 := max pri7 (infNorm (e.pre.unscale_primal_res_ub (headVec d.x_ub d.n_ub)) d.n_ub)
  ⟨rxv, ryv, rzv, rzlbv, rzubv, t4, pri8, dri5⟩

/-- Run `update_nr_residuals` on the state: writes the `*_nr` fields (only
the heads of the length-`n` compressed rows), the `dx` scratch vector and
the relative-norm maxima. -/
def updateNrResiduals (e : Env) (st : SState) : SState :=
  let r := nrOf e st.x st.y st.z st.z_lb st.z_ub st.s st.s_lb st.s_ub
  {st with rx_nr := r.rx, ry_nr := r.ry, rz_nr := r.rz,
           rz_lb_nr := fun i => if i < e.data.n_lb then r.rz_lb i else st.rz_lb_nr i,
           rz_ub_nr := fun i => if i < e.data.n_ub then r.rz_ub i else st.rz_ub_nr i,
           dx := r.dxFinal,
           primal_rel_inf := r.pri, dual_rel_inf := r.dri}

/-- Top of an outer iteration: recompute the non-regularised residuals when
`iter == 0` (otherwise they date from the end of the previous iteration). -/
def refreshAtTop (e : Env) (st : SState) : SState :=
  if st.info.iter = 0 then updateNrResiduals e st else st

/-- `primal_inf` as computed at the top of the outer loop (lines 438-441):
the running maximum of the unscaled infinity norms of `ry_nr`, `rz_nr` and
the live heads of `rz_lb_nr`, `rz_ub_nr`. -/
def primalInfOf (e : Env) (st : SState) : ℚ :=
  max (max (max (infNorm (e.pre.unscale_primal_res_eq (headVec st.ry_nr e.data.p)) e.data.p)
                (infNorm (e.pre.unscale_primal_res_ineq (headVec st.rz_nr e.data.m)) e.data.m))
           (infNorm (e.pre.unscale_primal_res_lb (headVec st.rz_lb_nr e.data.n_lb)) e.data.n_lb))
      (infNorm (e.pre.unscale_primal_res_ub (headVec st.rz_ub_nr e.data.n_ub)) e.data.n_ub)

/-- `dual_inf` as computed at the top of the outer loop (line 442): the
unscaled infinity norm of `rx_nr`. -/
def dualInfOf (e : Env) (st : SState) : ℚ :=
  infNorm (e.pre.unscale_dual_res (headVec st.rx_nr e.data.n)) e.data.n

/-- Store `primal_inf` and `dual_inf` into the info block. -/
def setInfNorms (e : Env) (st : SState) : SState :=
  {st with info := {st.info with primal_inf := primalInfOf e st,
                                 dual_inf := dualInfOf e st}}

/-- The state on which the convergence test is evaluated: residuals
refreshed if needed, then the norms stored. -/
def topState (e : Env) (st : SState) : SState :=
  setInfNorms e (refreshAtTop e st)

/-- The convergence test as the source reads it, on the stored info fields
(line 472-474). -/
def convTest (e : Env) (st : SState) : Prop :=
  st.info.primal_inf < e.set.feas_tol_abs + e.set.feas_tol_rel * st.primal_rel_inf ∧
  st.info.dual_inf < e.set.feas_tol_abs + e.set.feas_tol_rel * st.dual_rel_inf ∧
  st.info.mu < e.set.dual_tol

instance (e : Env) (st : SState) : Decidable (convTest e st) := by
  unfold convTest; infer_instance

/-- The convergence condition expressed directly through the residual
norms, as the spec states it. -/
def convergedCond (e : Env) (st : SState) : Prop :=
  primalInfOf e st < e.set.feas_tol_abs + e.set.feas_tol_rel * st.primal_rel_inf ∧
  dualInfOf e st < e.set.feas_tol_abs + e.set.feas_tol_rel * st.dual_rel_inf ∧
  st.info.mu < e.set.dual_tol

/-- Form the regularised residuals (lines 480-484); only the live heads of
the compressed bound residual arrays are overwritten. -/
def regResiduals (e : Env) (st : SState) : SState :=
  {st with
    rx := fun i => st.rx_nr i - st.info.rho * (st.x i - st.zeta i),
    ry := fun i => st.ry_nr i - st.info.delta * (st.lambda i - st.y i),
    rz := fun i => st.rz_nr i - st.info.delta * (st.nu i - st.z i),
    rz_lb := fun i => if i < e.data.n_lb then
        st.rz_lb_nr i - st.info.delta * (st.nu_lb i - st.z_lb i) else st.rz_lb i,
    rz_ub := fun i => if i < e.data.n_ub then
        st.rz_ub_nr i - st.info.delta * (st.nu_ub i - st.z_ub i) else st.rz_ub i}

/-- The state on which the infeasibility tests are evaluated. -/
def regState (e : Env) (st : SState) : SState :=
  regResiduals e (topState e st)

/-- `dual_prox_inf_norm` (lines 486-489): unscaled infinity norm of the
dual proximal gaps. -/
def dualProxNormOf (e : Env) (st : SState) : ℚ :=
  max (max (max (infNorm (e.pre.unscale_dual_eq (headVec (fun i => st.lambda i - st.y i) e.data.p)) e.data.p)
                (infNorm (e.pre.unscale_dual_ineq (headVec (fun i => st.nu i - st.z i) e.data.m)) e.data.m))
           (infNorm (e.pre.unscale_dual_lb (headVec (fun i => st.nu_lb i - st.z_lb i) e.data.n_lb)) e.data.n_lb))
      (infNorm (e.pre.unscale_dual_ub (headVec (fun i => st.nu_ub i - st.z_ub i) e.data.n_ub)) e.data.n_ub)

/-- `dual_inf_norm` (lines 491-494): unscaled infinity norm of the
regularised residuals `ry`, `rz`, `rz_lb`, `rz_ub`. -/
def dualOfROf (e : Env) (st : SState) : ℚ :=
  max (max (max (infNorm (e.pre.unscale_primal_res_eq (headVec st.ry e.data.p)) e.data.p)
                (infNorm (e.pre.unscale_primal_res_ineq (headVec st.rz e.data.m)) e.data.m))
           (infNorm (e.pre.unscale_primal_res_lb (headVec st.rz_lb e.data.n_lb)) e.data.n_lb))
      (infNorm (e.pre.unscale_primal_res_ub (headVec st.rz_ub e.data.n_ub)) e.data.n_ub)

/-- The primal-infeasibility verdict (line 496). -/
def primalInfeasCond (e : Env) (st : SState) : Prop :=
  5 < st.info.no_dual_update ∧ 10 ^ 10 < dualProxNormOf e st ∧
  dualOfROf e st < e.set.feas_tol_abs

instance (e : Env) (st : SState) : Decidable (primalInfeasCond e st) := by
  unfold primalInfeasCond; infer_instance

/-- The dual-infeasibility verdict (lines 502-504). -/
def dualInfeasCond (e : Env) (st : SState) : Prop :=
  5 < st.info.no_primal_update ∧
  10 ^ 10 < infNorm (e.pre.unscale_primal (headVec (fun i => st.x i - st.zeta i) e.data.n)) e.data.n ∧
  infNorm (e.pre.unscale_dual_res (headVec st.rx e.data.n)) e.data.n < e.set.feas_tol_abs

instance (e : Env) (st : SState) : Decidable (dualInfeasCond e st) := by
  unfold dualInfeasCond; infer_instance

/-- The value `1e-13` to which the regularisation floor is lowered under
stagnation (lines 513-519). -/
def regFloor : ℚ := 1 / 10 ^ 13

/-- `iter++` followed by the stagnation check that lowers `reg_limit` and
resets both no-update counters (lines 510-519). -/
def iterInc (_e : Env) (st : SState) : SState :=
  let i1 := {st.info with iter := st.info.iter + 1}
  if (5 < i1.no_primal_update ∧ i1.rho = i1.reg_limit ∧ i1.reg_limit ≠ regFloor) ∨
     (5 < i1.no_dual_update ∧ i1.delta = i1.reg_limit ∧ i1.reg_limit ≠ regFloor) then
    {st with info := {i1 with reg_limit := regFloor, no_primal_update := 0,
                              no_dual_update := 0}}
  else
    {st with info := i1}

/-- `KKT.update_scalings` (ghost): record the staged arguments. -/
def stageScalings (st : SState) : SState :=
  {st with staged_rho := st.info.rho, staged_delta := st.info.delta,
           staged_s := st.s, staged_s_lb := st.s_lb, staged_s_ub := st.s_ub,
           staged_z := st.z, staged_z_lb := st.z_lb, staged_z_ub := st.z_ub}

/-- The factorisation-retry inflation used in the pre-loop retry
(lines 355-358): `delta`, `rho` scaled by 100, `factor_retires`
incremented, `reg_limit` raised to `min(10 reg_limit, feas_tol_abs)`. -/
def initRetryT (e : Env) (st : SState) : SState :=
  {st with info := {st.info with
    delta := st.info.delta * 100,
    rho := st.info.rho * 100,
    factor_retires := st.info.factor_retires + 1,
    reg_limit := min (10 * st.info.reg_limit) e.set.feas_tol_abs}}

/-- The main-loop factorisation-retry transform (lines 530-534): as above
plus `iter--`. -/
def mainRetryT (e : Env) (st : SState) : SState :=
  {st with info := {st.info with
    delta := st.info.delta * 100,
    rho := st.info.rho * 100,
    iter := st.info.iter - 1,
    factor_retires := st.info.factor_retires + 1,
    reg_limit := min (10 * st.info.reg_limit) e.set.feas_tol_abs}}

/-- One step-length loop of the source (lines 558-590 and 612-644): fold
over `i < k`, taking the minimum with `-(s i) / d i` whenever `d i < 0`. -/
def alphaFold (s d : Vec) (k : ℕ) (a0 : ℚ) : ℚ :=
  (List.range k).foldl (fun a i => if d i < 0 then min a (-(s i) / d i) else a) a0

/-- The full fraction-to-boundary coefficient: start at 1, fold over the
`m` generic components, then the `n_lb` lower-bound and `n_ub` upper-bound
components. -/
def alphaAll (e : Env) (s slb sub d dlb dub : Vec) : ℚ :=
  alphaFold sub dub e.data.n_ub
    (alphaFold slb dlb e.data.n_lb
      (alphaFold s d e.data.m 1))

/-- The proximal/regularisation update for the `N > 0` branch
(lines 666-693), parametrised by the already-computed `mu_rate`.  Note the
second test reuses exactly the `primal_inf` formula on the fresh
non-regularised residuals. -/
def proxRegUpdate (e : Env) (r : ℚ) (st : SState) : SState :=
  let st6 :=
    if dualInfOf e st < (19/20) * st.info.dual_inf then
      {st with zeta := st.x,
               info := {st.info with
                 rho := max st.info.reg_limit ((1 - r) * st.info.rho)}}
    else
      {st with info := {st.info with
                 no_primal_update := st.info.no_primal_update + 1,
                 rho := max st.info.reg_limit ((1 - (333/500) * r) * st.info.rho)}}
  if primalInfOf e st6 < (19/20) * st6.info.primal_inf then
    {st6 with lambda := st6.y, nu := st6.z,
              nu_lb := fun i => if i < e.data.n_lb then st6.z_lb i else st6.nu_lb i,
              nu_ub := fun i => if i < e.data.n_ub then st6.z_ub i else st6.nu_ub i,
              info := {st6.info with
                delta := max st6.info.reg_limit ((1 - r) * st6.info.delta)}}
  else
    {st6 with info := {st6.info with
                no_dual_update := st6.info.no_dual_update + 1,
                delta := max st6.info.reg_limit ((1 - (333/500) * r) * st6.info.delta)}}

/-- The proximal/regularisation update for the pure-equality branch
(lines 709-729): fixed decay factors `0.1` / `0.5`, and the dual test only
looks at `ry_nr`. -/
def proxRegUpdate0 (e : Env) (st : SState) : SState :=
  let st6 :=
    if dualInfOf e st < (19/20) * st.info.dual_inf then
      {st with zeta := st.x,
               info := {st.info with
                 rho := max st.info.reg_limit ((1/10) * st.info.rho)}}
    else
      {st with info := {st.info with
                 no_primal_update := st.info.no_primal_update + 1,
                 rho := max st.info.reg_limit ((1/2) * st.info.rho)}}
  if infNorm (e.pre.unscale_primal_res_eq (headVec st6.ry_nr e.data.p)) e.data.p <
      (19/20) * st6.info.primal_inf then
    {st6 with lambda := st6.y,
              info := {st6.info with
                delta := max st6.info.reg_limit ((1/10) * st6.info.delta)}}
  else
    {st6 with info := {st6.info with
                no_dual_update := st6.info.no_dual_update + 1,
                delta := max st6.info.reg_limit ((1/2) * st6.info.delta)}}

/-- The predictor-corrector body for `m + n_lb + n_ub > 0`
(lines 548-664): predictor solve, fraction-to-boundary for `sigma`,
corrector solve, final step lengths, iterate update, `mu` update, fresh
non-regularised residuals, then the proximal/regularisation update. -/
def innerUpdate (e : Env) (st : SState) : SState :=
  let d := e.data
  let N : ℚ := ((d.m + d.n_lb + d.n_ub : ℕ) : ℚ)
  let rs1 : Vec := fun i => -(st.s i * st.z i)
  let rslb1 : Vec := fun i => if i < d.n_lb then -(st.s_lb i * st.z_lb i) else st.rs_lb i
  let rsub1 : Vec := fun i => if i < d.n_ub then -(st.s_ub i * st.z_ub i) else st.rs_ub i
  let sol1 := e.kktSolve st.nSolve ⟨st.rx, st.ry, st.rz, st.rz_lb, st.rz_ub, rs1, rslb1, rsub1⟩
  let as1 := alphaAll e st.s st.s_lb st.s_ub sol1.s sol1.s_lb sol1.s_ub * e.set.tau
  let az1 := alphaAll e st.z st.z_lb st.z_ub sol1.z sol1.z_lb sol1.z_ub * e.set.tau
  let sig0 := (dotN (fun i => st.s i + as1 * sol1.s i) (fun i => st.z i + az1 * sol1.z i) d.m
      + dotN (fun i => st.s_lb i + as1 * sol1.s_lb i) (fun i => st.z_lb i + az1 * sol1.z_lb i) d.n_lb
      + dotN (fun i => st.s_ub i + as1 * sol1.s_ub i) (fun i => st.z_ub i + az1 * sol1.z_ub i) d.n_ub)
      / (st.info.mu * N)
  let sig := sig0 * sig0 * sig0
  let rs2 : Vec := fun i => rs1 i + (-(sol1.s i * sol1.z i) + sig * st.info.mu)
  let rslb2 : Vec := fun i => if i < d.n_lb then
      rslb1 i + (-(sol1.s_lb i * sol1.z_lb i) + sig * st.info.mu) else rslb1 i
  let rsub2 : Vec := fun i => if i < d.n_ub then
      rsub1 i + (-(sol1.s_ub i * sol1.z_ub i) + sig * st.info.mu) else rsub1 i
  let sol2 := e.kktSolve (st.nSolve + 1) ⟨st.rx, st.ry, st.rz, st.rz_lb, st.rz_ub, rs2, rslb2, rsub2⟩
  let pstep := alphaAll e st.s st.s_lb st.s_ub sol2.s sol2.s_lb sol2.s_ub * e.set.tau
  let dstep := alphaAll e st.z st.z_lb st.z_ub sol2.z sol2.z_lb sol2.z_ub * e.set.tau
  let x2 : Vec := fun i => st.x i + pstep * sol2.x i
  let y2 : Vec := fun i => st.y i + dstep * sol2.y i
  let z2 : Vec := fun i => st.z i + dstep * sol2.z i
  let zlb2 : Vec := fun i => if i < d.n_lb then st.z_lb i + dstep * sol2.z_lb i else st.z_lb i
  let zub2 : Vec := fun i => if i < d.n_ub then st.z_ub i + dstep * sol2.z_ub i else st.z_ub i
  let s2 : Vec := fun i => st.s i + pstep * sol2.s i
  let slb2 : Vec := fun i => if i < d.n_lb then st.s_lb i + pstep * sol2.s_lb i else st.s_lb i
  let sub2 : Vec := fun i => if i < d.n_ub then st.s_ub i + pstep * sol2.s_ub i else st.s_ub i
  let muNew := (dotN s2 z2 d.m + dotN slb2 zlb2 d.n_lb + dotN sub2 zub2 d.n_ub) / N
  let muRate := |st.info.mu - muNew| / st.info.mu
  proxRegUpdate e muRate (updateNrResiduals e
    {st with x := x2, y := y2, z := z2, z_lb := zlb2, z_ub := zub2,
             s := s2, s_lb := slb2, s_ub := sub2,
             rs := rs2, rs_lb := rslb2, rs_ub := rsub2,
             dx := sol2.x, dy := sol2.y, dz := sol2.z,
             dz_lb := sol2.z_lb, dz_ub := sol2.z_ub,
             ds := sol2.s, ds_lb := sol2.s_lb, ds_ub := sol2.s_ub,
             nSolve := st.nSolve + 2,
             info := {st.info with sigma := sig, primal_step := pstep,
                                   dual_step := dstep, mu := muNew}})

/-- The pure-equality body (lines 695-730): a single Newton solve with the
current right-hand sides, full steps on `x`, `y`, fresh residuals, then
the `0.1` / `0.5` regularisation schedule. -/
def fullStepUpdate (e : Env) (st : SState) : SState :=
  let sol := e.kktSolve st.nSolve ⟨st.rx, st.ry, st.rz, st.rz_lb, st.rz_ub, st.rs, st.rs_lb, st.rs_ub⟩
  proxRegUpdate0 e (updateNrResiduals e
    {st with x := fun i => st.x i + 1 * sol.x i,
             y := fun i => st.y i + 1 * sol.y i,
             dx := sol.x, dy := sol.y, dz := sol.z,
             dz_lb := sol.z_lb, dz_ub := sol.z_ub,
             ds := sol.s, ds_lb := sol.s_lb, ds_ub := sol.s_ub,
             nSolve := st.nSolve + 1,
             info := {st.info with primal_step := 1, dual_step := 1}})

/-- The outcome of one pass through the body of the outer while loop:
either a terminal return or the state for the next pass. -/
inductive StepRes where
  | ret (s : Status) (st : SState)
  | cont (st : SState)

/-- Status of a step outcome (`none` when the loop continues). -/
def stepStatus : StepRes → Option Status
  | .ret s _ => some s
  | .cont _ => none

/-- State carried by a step outcome. -/
def stepState : StepRes → SState
  | .ret _ st => st
  | .cont st => st

/-- The state presented to `factorize()` in the main loop: regularised
residuals formed, infeasibility state, `iter++` and the stagnation
relaxation applied, scalings staged, `m_kkt_init_state` cleared. -/
def preFactorState (e : Env) (st : SState) : SState :=
  {stageScalings (iterInc e (regState e st)) with kkt_init_state := false}

/-- The state after a successful main-loop factorisation (line 543):
`factor_retires` reset to 0 (the factorisation call is also counted). -/
def postFactOk (e : Env) (st : SState) : SState :=
  {preFactorState e st with
    nFact := (preFactorState e st).nFact + 1,
    info := {(preFactorState e st).info with factor_retires := 0}}

/-- The state after a failed main-loop factorisation call. -/
def postFactFail (e : Env) (st : SState) : SState :=
  {preFactorState e st with nFact := (preFactorState e st).nFact + 1}

/-- One pass of the outer loop body (lines 433-730): residual refresh,
norms, convergence test, regularised residuals, infeasibility tests,
`iter++` and the stagnation relaxation, staging + factorisation with the
retry/exhaustion handling, and the predictor-corrector or full-step body. -/
def iterStep (e : Env) (st : SState) : StepRes :=
  if convTest e (topState e st) then
    .ret .SOLVED (setStatus (topState e st) .SOLVED)
  else if primalInfeasCond e (regState e st) then
    .ret .PRIMAL_INFEASIBLE (setStatus (regState e st) .PRIMAL_INFEASIBLE)
  else if dualInfeasCond e (regState e st) then
    .ret .DUAL_INFEASIBLE (setStatus (regState e st) .DUAL_INFEASIBLE)
  else if e.kktFact (preFactorState e st).nFact then
    if 0 < e.data.m + e.data.n_lb + e.data.n_ub then
      .cont (innerUpdate e (postFactOk e st))
    else
      .cont (fullStepUpdate e (postFactOk e st))
  else if (postFactFail e st).info.factor_retires < e.set.max_factor_retires then
    .cont (mainRetryT e (postFactFail e st))
  else
    .ret .NUMERICS (setStatus (postFactFail e st) .NUMERICS)

/-- The outer while loop (line 431), with explicit fuel.  `none` means the
fuel ran out (never the case for the fuel `solve_impl` supplies). -/
def outerLoop (e : Env) : ℕ → SState → Option (Status × SState)
  | 0, _ => none
  | fuel + 1, st =>
    if st.info.iter < e.set.max_iter then
      match iterStep e st with
      | .ret s st2 => some (s, st2)
      | .cont st2 => outerLoop e fuel st2
    else
      some (.MAX_ITER_REACHED, setStatus st .MAX_ITER_REACHED)

/-- The info reset at the top of `solve_impl` (lines 325-333). -/
def resetInfoEntry (e : Env) (st : SState) : SState :=
  {st with info := {st.info with
    status := Status.UNSOLVED, iter := 0,
    reg_limit := e.set.reg_lower_limit, factor_retires := 0,
    no_primal_update := 0, no_dual_update := 0, mu := 0,
    primal_step := 0, dual_step := 0}}

/-- The cold-start branch (lines 335-349): reset `rho`, `delta`, set the
active parts of all slacks and inequality duals to 1, then stage
`update_scalings`. -/
def initScalings (e : Env) (st : SState) : SState :=
  stageScalings
    {st with info := {st.info with rho := e.set.rho_init, delta := e.set.delta_init},
             s := fun _ => 1, s_lb := setHead st.s_lb e.data.n_lb 1,
             s_ub := setHead st.s_ub e.data.n_ub 1,
             z := fun _ => 1, z_lb := setHead st.z_lb e.data.n_lb 1,
             z_ub := setHead st.z_ub e.data.n_ub 1}

/-- Outcome of the pre-loop factorisation retry loop. -/
inductive FactorRes where
  | ok (st : SState)
  | fail (st : SState)
  | out

/-- The pre-loop `while (!factorize())` retry loop (lines 351-365), with
explicit fuel (`.out` is unreachable for the fuel `solve_impl` supplies). -/
def initFactorLoop (e : Env) : ℕ → SState → FactorRes
  | 0, _ => .out
  | fuel + 1, st =>
    if e.kktFact st.nFact then .ok {st with nFact := st.nFact + 1}
    else
      let st1 := {st with nFact := st.nFact + 1}
      if st1.info.factor_retires < e.set.max_factor_retires then
        initFactorLoop e fuel (initRetryT e st1)
      else .fail st1

/-- The right-hand side of the initial Newton solve (lines 368-379):
`r_x = -c`, `r_y = b`, `r_z = h`, `r_z_lb = x_lb_n`, `r_z_ub = x_ub`,
`r_s = r_s_lb = r_s_ub = 0`. -/
def initRhs (e : Env) : Rhs :=
  ⟨fun i => -(e.data.c i), e.data.b, e.data.h, e.data.x_lb_n, e.data.x_ub,
   fun _ => 0, fun _ => 0, fun _ => 0⟩

/-- The inequality-slack norm tested after the initial solve
(lines 386-389). -/
def initSNorm (e : Env) (sol : Sol) : ℚ :=
  max (max (max 0 (infNorm sol.s e.data.m)) (infNorm sol.s_lb e.data.n_lb))
      (infNorm sol.s_ub e.data.n_ub)

/-- The initial Newton solve and the slack safeguard (lines 368-399): the
output overwrites the iterate; when inequalities are present and the slack
norm is at most `1e-4`, all active slack and inequality-dual parts are
reset to `0.1`. -/
def initNewton (e : Env) (st : SState) : SState :=
  let d := e.data
  let sol := e.kktSolve st.nSolve (initRhs e)
  let base := {st with rx := fun i => -(d.c i),
                       rs := fun _ => 0, rs_lb := fun _ => 0, rs_ub := fun _ => 0,
                       nSolve := st.nSolve + 1,
                       x := sol.x, y := sol.y, z := sol.z,
                       z_lb := sol.z_lb, z_ub := sol.z_ub,
                       s := sol.s, s_lb := sol.s_lb, s_ub := sol.s_ub}
  if 0 < d.m + d.n_lb + d.n_ub ∧ initSNorm e sol ≤ 1 / 10 ^ 4 then
    {base with s := fun _ => 1/10, s_lb := setHead sol.s_lb d.n_lb (1/10),
               s_ub := setHead sol.s_ub d.n_ub (1/10),
               z := fun _ => 1/10, z_lb := setHead sol.z_lb d.n_lb (1/10),
               z_ub := setHead sol.z_ub d.n_ub (1/10)}
  else base

/-- The Mehrotra-style initial bias (lines 401-423), executed only when
`m + n_lb + n_ub > 0`. -/
def mehrotraShift (e : Env) (st : SState) : SState :=
  let d := e.data
  if 0 < d.m + d.n_lb + d.n_ub then
    let N : ℚ := ((d.m + d.n_lb + d.n_ub : ℕ) : ℚ)
    let ds1 := if 0 < d.m then max 0 (-(3/2) * minCoeffN st.s d.m) else 0
    let ds2 := if 0 < d.n_lb then max ds1 (-(3/2) * minCoeffN st.s_lb d.n_lb) else ds1
    let ds3 := if 0 < d.n_ub then max ds2 (-(3/2) * minCoeffN st.s_ub d.n_ub) else ds2
    let dz1 := if 0 < d.m then max 0 (-(3/2) * minCoeffN st.z d.m) else 0
    let dz2 := if 0 < d.n_lb then max dz1 (-(3/2) * minCoeffN st.z_lb d.n_lb) else dz1
    let dz3 := if 0 < d.n_ub then max dz2 (-(3/2) * minCoeffN st.z_ub d.n_ub) else dz2
    let tmp := dotN (fun i => st.s i + ds3) (fun i => st.z i + dz3) d.m
      + dotN (fun i => st.s_lb i + ds3) (fun i => st.z_lb i + dz3) d.n_lb
      + dotN (fun i => st.s_ub i + ds3) (fun i => st.z_ub i + dz3) d.n_ub
    let dsBar := ds3 + ((1/2) * tmp) /
      (sumN st.z d.m + sumN st.z_lb d.n_lb + sumN st.z_ub d.n_ub + N * dz3)
    let dzBar := dz3 + ((1/2) * tmp) /
      (sumN st.s d.m + sumN st.s_lb d.n_lb + sumN st.s_ub d.n_ub + N * ds3)
    let s2 : Vec := fun i => st.s i + dsBar
    let slb2 : Vec := fun i => if i < d.n_lb then st.s_lb i + dsBar else st.s_lb i
    let sub2 : Vec := fun i => if i < d.n_ub then st.s_ub i + dsBar else st.s_ub i
    let z2 : Vec := fun i => st.z i + dzBar
    let zlb2 : Vec := fun i => if i < d.n_lb then st.z_lb i + dzBar else st.z_lb i
    let zub2 : Vec := fun i => if i < d.n_ub then st.z_ub i + dzBar else st.z_ub i
    {st with s := s2, s_lb := slb2, s_ub := sub2, z := z2, z_lb := zlb2, z_ub := zub2,
             info := {st.info with mu :=
               (dotN s2 z2 d.m + dotN slb2 zlb2 d.n_lb + dotN sub2 zub2 d.n_ub) / N}}
  else st

/-- Lines 425-429: set the proximal centres from the current iterate. -/
def setProxCenters (e : Env) (st : SState) : SState :=
  {st with zeta := st.x, lambda := st.y, nu := st.z,
           nu_lb := fun i => if i < e.data.n_lb then st.z_lb i else st.nu_lb i,
           nu_ub := fun i => if i < e.data.n_ub then st.z_ub i else st.nu_ub i}

/-- Fuel that can never be exhausted by the outer loop: every pass either
raises `iter` (capped by `max_iter`) or raises `factor_retires`
(capped by `max_factor_retires` between resets). -/
def loopFuel (e : Env) : ℕ :=
  (e.set.max_iter + 1) * (e.set.max_factor_retires + 2) + 1

/-- `solve_impl` (lines 303-735): the early `UNSOLVED` /
`INVALID_SETTINGS` returns, the info reset, cold-start scaling, the
pre-loop factorisation with retries, the initial Newton solve, the
Mehrotra bias, the proximal centres, and the outer loop. -/
def solve_impl (e : Env) (st : SState) : Status × SState :=
  if st.setup_done = false then (.UNSOLVED, setStatus st .UNSOLVED)
  else if e.set.verify = false then (.INVALID_SETTINGS, setStatus st .INVALID_SETTINGS)
  else
    let st1 := resetInfoEntry e st
    let st2 := if st1.kkt_init_state = false then initScalings e st1 else st1
    match initFactorLoop e (e.set.max_factor_retires + 2) st2 with
    | .out => (.NUMERICS, setStatus st2 .NUMERICS)
    | .fail st3 => (.NUMERICS, setStatus st3 .NUMERICS)
    | .ok st3 =>
      let st4 := {st3 with info := {st3.info with factor_retires := 0}}
      let st7 := setProxCenters e (mehrotraShift e (initNewton e st4))
      match outerLoop e (loopFuel e) st7 with
      | some r => r
      | none => (st7.info.status, st7)

/-- `unscale_results` (lines 812-827). -/
def unscaleResults (e : Env) (st : SState) : SState :=
  let k := e.data.n_lb
  let ku := e.data.n_ub
  {st with x := e.pre.unscale_primal (headVec st.x e.data.n),
           y := e.pre.unscale_dual_eq (headVec st.y e.data.p),
           z := e.pre.unscale_dual_ineq (headVec st.z e.data.m),
           z_lb := fun i => if i < k then e.pre.unscale_dual_lb (headVec st.z_lb k) i else st.z_lb i,
           z_ub := fun i => if i < ku then e.pre.unscale_dual_ub (headVec st.z_ub ku) i else st.z_ub i,
           s := e.pre.unscale_slack_ineq (headVec st.s e.data.m),
           s_lb := fun i => if i < k then e.pre.unscale_slack_lb (headVec st.s_lb k) i else st.s_lb i,
           s_ub := fun i => if i < ku then e.pre.unscale_slack_ub (headVec st.s_ub ku) i else st.s_ub i,
           zeta := e.pre.unscale_primal (headVec st.zeta e.data.n),
           lambda := e.pre.unscale_dual_eq (headVec st.lambda e.data.p),
           nu := e.pre.unscale_dual_ineq (headVec st.nu e.data.m),
           nu_lb := fun i => if i < k then e.pre.unscale_dual_lb (headVec st.nu_lb k) i else st.nu_lb i,
           nu_ub := fun i => if i < ku then e.pre.unscale_dual_ub (headVec st.nu_ub ku) i else st.nu_ub i}

/-- Pointwise swap of two positions of a vector. -/
def swapF {α : Type} (f : ℕ → α) (a b : ℕ) : ℕ → α :=
  fun i => if i = a then f b else if i = b then f a else f i

/-- Apply the swaps `swap (f i) (f (idx i))` for `i = k-1, …, 0`, i.e. in
reverse order as in `restore_box_dual`. -/
def swapFold {α : Type} (idx : ℕ → ℕ) (k : ℕ) (g : ℕ → α) : ℕ → α :=
  ((List.range k).reverse).foldl (fun f i => swapF f i (idx i)) g

/-- Restore one compressed vector: keep the live head `v 0, …, v (k-1)`,
fill the tail with `fill`, then run the reverse-order swaps. -/
def restoreVec {α : Type} (idx : ℕ → ℕ) (k : ℕ) (fill : α) (v : ℕ → α) : ℕ → α :=
  swapFold idx k (fun i => if i < k then v i else fill)

/-- `restore_box_dual` (lines 790-810): tails of `z_lb`, `z_ub`, `nu_lb`,
`nu_ub` are zeroed, tails of `s_lb`, `s_ub` are set to `+inf` (the
environment constant `sInf`), then each vector is permuted by the
reverse-order swaps through its index map. -/
def restore_box_dual (e : Env) (st : SState) : SState :=
  let d := e.data
  {st with z_lb := restoreVec d.x_lb_idx d.n_lb 0 st.z_lb,
           z_ub := restoreVec d.x_ub_idx d.n_ub 0 st.z_ub,
           s_lb := restoreVec d.x_lb_idx d.n_lb e.sInf st.s_lb,
           s_ub := restoreVec d.x_ub_idx d.n_ub e.sInf st.s_ub,
           nu_lb := restoreVec d.x_lb_idx d.n_lb 0 st.nu_lb,
           nu_ub := restoreVec d.x_ub_idx d.n_ub 0 st.nu_ub}

/-- The public `solve` (lines 89-148, stripped of printing and timing):
run `solve_impl`, then unconditionally unscale the results and restore the
box duals. -/
def solve (e : Env) (st : SState) : Status × SState :=
  let r := solve_impl e st
  (r.1, restore_box_dual e (unscaleResults e r.2))

/-- `setup_lb_data` (lines 212-230): scan the supplied lower bounds in
index order; every entry strictly above `-PIQP_INF` appends its negation
to the value list and its index to the index list.  Returns the pair
(values, indices); `n_lb` is the length. -/
def setup_lb_data (n : ℕ) (x_lb : Option Vec) : List ℚ × List ℕ :=
  match x_lb with
  | none => ([], [])
  | some v =>
    (List.range n).foldl
      (fun acc i => if -PIQP_INF < v i then (acc.1 ++ [-(v i)], acc.2 ++ [i]) else acc)
      ([], [])

/-- `setup_ub_data` (lines 232-250): same scan for upper bounds strictly
below `PIQP_INF`, stored un-negated. -/
def setup_ub_data (n : ℕ) (x_ub : Option Vec) : List ℚ × List ℕ :=
  match x_ub with
  | none => ([], [])
  | some v =>
    (List.range n).foldl
      (fun acc i => if v i < PIQP_INF then (acc.1 ++ [v i], acc.2 ++ [i]) else acc)
      ([], [])

/-- The non-regularised dual residual exactly as claimed by the spec:
`r_x_nr = -P x - c - Aᵀ y - Gᵀ z - E_lbᵀ z_lb + E_ubᵀ z_ub`, reading the
`E` matrices in the sign convention forced by the row formulas
`r_z_lb_nr = x_lb_n - E_lb x - s_lb` and `r_z_ub_nr = x_ub - E_ub x - s_ub`
(the `h - Gx - s` pattern of the surrounding block), i.e.
`E_lb` has rows `-e_(x_lb_idx i)` and `E_ub` has rows `e_(x_ub_idx i)`.
Under that convention `-E_lbᵀ z_lb` scatters `+z_lb` and `+E_ubᵀ z_ub`
scatters `+z_ub`. -/
def claimRxFormula (e : Env) (st : SState) : Vec :=
  fun i => -(mulMatVec (Pfull e.data.P_utri) e.data.n st.x i) - e.data.c i
    - mulMatVec e.data.AT e.data.p st.y i - mulMatVec e.data.GT e.data.m st.z i
    + specScatter e.data.x_lb_idx e.data.n_lb st.z_lb i
    + specScatter e.data.x_ub_idx e.data.n_ub st.z_ub i

/-- The corrected dual residual formula, matching the source: the
contribution of the upper-bound duals enters with a minus sign, i.e.
`r_x_nr = -P x - c - Aᵀ y - Gᵀ z + S_lbᵀ z_lb - S_ubᵀ z_ub` with `S_lb`,
`S_ub` the plain selection matrices of the index maps (equivalently
`… - E_lbᵀ z_lb - E_ubᵀ z_ub` for `E_lb = -S_lb`, `E_ub = S_ub`). -/
def rxNrFormula (e : Env) (st : SState) : Vec :=
  fun i => -(mulMatVec (Pfull e.data.P_utri) e.data.n st.x i) - e.data.c i
    - mulMatVec e.data.AT e.data.p st.y i - mulMatVec e.data.GT e.data.m st.z i
    + specScatter e.data.x_lb_idx e.data.n_lb st.z_lb i
    - specScatter e.data.x_ub_idx e.data.n_ub st.z_ub i

/-! Concrete instances used by witnesses and counterexamples. -/

def zeroVec : Vec := fun _ => 0

/-- The identity preconditioner (no scaling). -/
def idPre : Precond :=
  ⟨id, id, id, id, id, id, id, id, id, id, id, id, id⟩

def zeroSol : Sol := ⟨zeroVec, zeroVec, zeroVec, zeroVec, zeroVec, zeroVec, zeroVec, zeroVec⟩

/-- An empty problem (all dimensions 0). -/
def zeroData : Data := ⟨0, 0, 0, 0, 0, fun _ _ => 0, fun _ _ => 0, fun _ _ => 0,
  zeroVec, zeroVec, zeroVec, zeroVec, zeroVec, id, id⟩

/-- Baseline settings (defaults of `settings.hpp` where relevant). -/
def set1 : Settings := ⟨1/10^6, 1/10^6, 10, 1, 1/10^10, 1/10^8, 0, 1/10^7, 99/100, true⟩

def info0 : Info := ⟨Status.UNSOLVED, 0, 1/10^6, 1/10^6, 0, 0, 0, 0, 0, 0, 1/10^10, 0, 0, 0⟩

/-- Baseline state: all vectors zero, solver set up, no previous scaling
reuse pending (`kkt_init_state = true`, as right after `setup`). -/
def st0 : SState :=
  ⟨zeroVec, zeroVec, zeroVec, zeroVec, zeroVec, zeroVec, zeroVec, zeroVec,
   zeroVec, zeroVec, zeroVec, zeroVec, zeroVec,
   zeroVec, zeroVec, zeroVec, zeroVec, zeroVec, zeroVec, zeroVec, zeroVec,
   zeroVec, zeroVec, zeroVec, zeroVec, zeroVec,
   zeroVec, zeroVec, zeroVec, zeroVec, zeroVec, zeroVec, zeroVec, zeroVec,
   info0, 0, 0, true, true, 0, 0,
   0, 0, zeroVec, zeroVec, zeroVec, zeroVec, zeroVec, zeroVec⟩

/-- Environment whose factorisations always fail. -/
def envN : Env := ⟨zeroData, set1, idPre, fun _ => false, fun _ _ => zeroSol, 0⟩

/-- The state left behind by a `solve` that ended with `NUMERICS`. -/
def stAfterN : SState := (solve_impl envN st0).2

/-- The same solver with settings made invalid afterwards. -/
def envBad : Env := {envN with set := {set1 with verify := false}}

/-- Environment with always-successful factorisations and a convergence
tolerance the zero problem meets at once. -/
def envOk : Env :=
  ⟨zeroData, {set1 with feas_tol_abs := 1/100, dual_tol := 1}, idPre,
   fun _ => true, fun _ _ => zeroSol, 0⟩

/-- Data with one upper-bounded variable (for the `r_x_nr` sign check). -/
def dataUb : Data := {zeroData with n := 1, n_ub := 1}

def envUb : Env := ⟨dataUb, set1, idPre, fun _ => true, fun _ _ => zeroSol, 0⟩

/-- State with `z_ub = 1` on the single active upper bound. -/
def stUb : SState := {st0 with z_ub := fun _ => 1}

/-- Data with one generic inequality (for the positivity witness). -/
def dataM : Data := {zeroData with m := 1}

/-- A KKT solve output with descent directions `-1` on all blocks. -/
def solNeg : Sol :=
  ⟨zeroVec, zeroVec, fun _ => -1, fun _ => -1, fun _ => -1,
   fun _ => -1, fun _ => -1, fun _ => -1⟩

def envM : Env := ⟨dataM, set1, idPre, fun _ => true, fun _ _ => solNeg, 0⟩

/-- State with unit slacks and duals on the single inequality and a
non-converged `mu`, so an inner iteration actually runs. -/
def stM : SState :=
  {st0 with s := fun _ => 1, z := fun _ => 1, info := {info0 with mu := 1}}

/-- Stagnating one-equality problem driving the infeasibility return right
after a factorisation retry: `n = p = 1`, `A = 0`, `b = 1`, everything
else zero. -/
def dataT : Data := {zeroData with n := 1, p := 1, b := fun _ => 1}

/-- `delta_init` for the stagnation trace. -/
def dIT : ℚ := 1 / 10 ^ 14

/-- The `dy` injected by the oracle on every loop solve of the trace. -/
def tT : ℚ := -(8/75) * 10 ^ 14

/-- Trace settings: tiny regularisation floor, one factorisation retry. -/
def setT : Settings := ⟨1/10^6, dIT, 20, 1, 1/10^30, 1/10^8, 0, 1/10^7, 99/100, true⟩

/-- Trace oracle: the 8th factorisation call (index 7) fails, all others
succeed; the initial Newton solve returns zero, every loop solve returns
`dy = tT`. -/
def envT : Env :=
  ⟨dataT, setT, idPre, fun k => k != 7,
   fun k _ => if k = 0 then zeroSol else {zeroSol with y := fun _ => tT}, 0⟩

/-- Entry state for the trace (fresh after setup with `delta_init`). -/
def stT : SState := {st0 with info := {info0 with delta := dIT}}

/-- Baseline state with a non-converged `mu` (so one outer pass runs). -/
def stMu1 : SState := {st0 with info := {info0 with mu := 1}}

/-- As `stMu1`, with the retry counter already at its maximum. -/
def stMu1R1 : SState := {st0 with info := {info0 with mu := 1, factor_retires := 1}}

/-- Baseline state with the retry counter already at its maximum. -/
def stR1 : SState := {st0 with info := {info0 with factor_retires := 1}}

/-- Data with one generic inequality and one lower bound (for the
initial-slack-norm counterexample). -/
def dataAny : Data := {zeroData with n := 1, m := 1, n_lb := 1}

/-- An initial solve output with a unit generic slack but a tiny
lower-bound slack, so one of the three slack norms is below `1e-4` while
their maximum is not. -/
def solAny : Sol :=
  ⟨zeroVec, zeroVec, zeroVec, zeroVec, zeroVec, fun _ => 1,
   fun _ => 1 / 10 ^ 5, zeroVec⟩

def envAny : Env := ⟨dataAny, set1, idPre, fun _ => true, fun _ _ => solAny, 0⟩

/-- One-inequality environment whose initial solve returns zero slacks,
triggering the `0.1` safeguard. -/
def envC6 : Env := ⟨dataM, set1, idPre, fun _ => true, fun _ _ => zeroSol, 0⟩

/-- Two variables, one lower bound sitting on variable 1 (for the
non-atomicity trace). -/
def dataMut : Data := {zeroData with n := 2, n_lb := 1, x_lb_idx := fun _ => 1}

/-- A solver that was never set up, still holding box duals `5`, `7` from
a previous solve. -/
def stMut : SState :=
  {st0 with setup_done := false, z_lb := fun i => if i = 0 then 5 else 7}

def envMut : Env := ⟨dataMut, set1, idPre, fun _ => true, fun _ _ => zeroSol, 0⟩

/-! Frame and projection lemmas for the state transformers. -/

theorem updateNr_info (e : Env) (st : SState) : (updateNrResiduals e st).info = st.info := rfl

theorem updateNr_x (e : Env) (st : SState) : (updateNrResiduals e st).x = st.x := rfl

theorem updateNr_y (e : Env) (st : SState) : (updateNrResiduals e st).y = st.y := rfl

theorem updateNr_z (e : Env) (st : SState) : (updateNrResiduals e st).z = st.z := rfl

theorem updateNr_z_lb (e : Env) (st : SState) : (updateNrResiduals e st).z_lb = st.z_lb := rfl

theorem updateNr_z_ub (e : Env) (st : SState) : (updateNrResiduals e st).z_ub = st.z_ub := rfl

theorem updateNr_s (e : Env) (st : SState) : (updateNrResiduals e st).s = st.s := rfl

theorem updateNr_s_lb (e : Env) (st : SState) : (updateNrResiduals e st).s_lb = st.s_lb := rfl

theorem updateNr_s_ub (e : Env) (st : SState) : (updateNrResiduals e st).s_ub = st.s_ub := rfl

theorem refresh_info (e : Env) (st : SState) : (refreshAtTop e st).info = st.info := by
  unfold refreshAtTop; split <;> rfl

theorem refresh_x (e : Env) (st : SState) : (refreshAtTop e st).x = st.x := by
  unfold refreshAtTop; split <;> rfl

theorem refresh_y (e : Env) (st : SState) : (refreshAtTop e st).y = st.y := by
  unfold refreshAtTop; split <;> rfl

theorem refresh_z (e : Env) (st : SState) : (refreshAtTop e st).z = st.z := by
  unfold refreshAtTop; split <;> rfl

theorem refresh_z_lb (e : Env) (st : SState) : (refreshAtTop e st).z_lb = st.z_lb := by
  unfold refreshAtTop; split <;> rfl

theorem refresh_z_ub (e : Env) (st : SState) : (refreshAtTop e st).z_ub = st.z_ub := by
  unfold refreshAtTop; split <;> rfl

theorem refresh_s (e : Env) (st : SState) : (refreshAtTop e st).s = st.s := by
  unfold refreshAtTop; split <;> rfl

theorem refresh_s_lb (e : Env) (st : SState) : (refreshAtTop e st).s_lb = st.s_lb := by
  unfold refreshAtTop; split <;> rfl

theorem refresh_s_ub (e : Env) (st : SState) : (refreshAtTop e st).s_ub = st.s_ub := by
  unfold refreshAtTop; split <;> rfl

theorem refresh_zeta (e : Env) (st : SState) : (refreshAtTop e st).zeta = st.zeta := by
  unfold refreshAtTop; split <;> rfl

theorem refresh_lambda (e : Env) (st : SState) : (refreshAtTop e st).lambda = st.lambda := by
  unfold refreshAtTop; split <;> rfl

theorem refresh_nu (e : Env) (st : SState) : (refreshAtTop e st).nu = st.nu := by
  unfold refreshAtTop; split <;> rfl

theorem refresh_nu_lb (e : Env) (st : SState) : (refreshAtTop e st).nu_lb = st.nu_lb := by
  unfold refreshAtTop; split <;> rfl

theorem refresh_nu_ub (e : Env) (st : SState) : (refreshAtTop e st).nu_ub = st.nu_ub := by
  unfold refreshAtTop; split <;> rfl

theorem refresh_nFact (e : Env) (st : SState) : (refreshAtTop e st).nFact = st.nFact := by
  unfold refreshAtTop; split <;> rfl

theorem iterInc_frame (e : Env) (st : SState) :
    iterInc e st = {st with info := (iterInc e st).info} := by
  unfold iterInc; dsimp only; split <;> rfl

theorem iterInc_retires (e : Env) (st : SState) :
    (iterInc e st).info.factor_retires = st.info.factor_retires := by
  unfold iterInc; dsimp only; split <;> rfl

theorem iterInc_iter (e : Env) (st : SState) :
    (iterInc e st).info.iter = st.info.iter + 1 := by
  unfold iterInc; dsimp only; split <;> rfl

theorem iterInc_rho (e : Env) (st : SState) :
    (iterInc e st).info.rho = st.info.rho := by
  unfold iterInc; dsimp only; split <;> rfl

theorem iterInc_delta (e : Env) (st : SState) :
    (iterInc e st).info.delta = st.info.delta := by
  unfold iterInc; dsimp only; split <;> rfl

theorem iterInc_mu (e : Env) (st : SState) :
    (iterInc e st).info.mu = st.info.mu := by
  unfold iterInc; dsimp only; split <;> rfl

theorem iterInc_reg_limit (e : Env) (st : SState) :
    (iterInc e st).info.reg_limit = st.info.reg_limit ∨
    (iterInc e st).info.reg_limit = regFloor := by
  unfold iterInc; dsimp only; split
  · exact Or.inr rfl
  · exact Or.inl rfl

/-- The stored-field convergence test on the top-of-iteration state is the
residual-norm convergence condition of the spec. -/
theorem convTest_eq (e : Env) (st : SState) :
    convTest e (topState e st) = convergedCond e (refreshAtTop e st) := rfl

/-- Inversion for terminal step outcomes. -/
theorem iterStep_ret_inv (e : Env) (st : SState) (s : Status) (st2 : SState)
    (h : iterStep e st = .ret s st2) :
    (s = .SOLVED ∧ convTest e (topState e st) ∧
      st2 = setStatus (topState e st) .SOLVED) ∨
    (s = .PRIMAL_INFEASIBLE ∧ ¬ convTest e (topState e st) ∧
      primalInfeasCond e (regState e st) ∧
      st2 = setStatus (regState e st) .PRIMAL_INFEASIBLE) ∨
    (s = .DUAL_INFEASIBLE ∧ ¬ convTest e (topState e st) ∧
      ¬ primalInfeasCond e (regState e st) ∧ dualInfeasCond e (regState e st) ∧
      st2 = setStatus (regState e st) .DUAL_INFEASIBLE) ∨
    (s = .NUMERICS ∧ ¬ convTest e (topState e st) ∧
      e.kktFact (preFactorState e st).nFact = false ∧
      ¬ (postFactFail e st).info.factor_retires < e.set.max_factor_retires ∧
      st2 = setStatus (postFactFail e st) .NUMERICS) := by
  unfold iterStep at h
  split_ifs at h with h1 h2 h3 h4 h5 h6 <;> (cases h; simp_all)

/-- When the convergence test passes, the step returns `SOLVED`. -/
theorem iterStep_of_conv (e : Env) (st : SState)
    (hc : convTest e (topState e st)) :
    iterStep e st = .ret .SOLVED (setStatus (topState e st) .SOLVED) := by
  unfold iterStep; simp [hc]

/-- C1 helper: the step reports `SOLVED` exactly on the convergence test. -/
theorem stepStatus_solved (e : Env) (st : SState) :
    stepStatus (iterStep e st) = some Status.SOLVED ↔
      convTest e (topState e st) := by
  constructor
  · intro h
    cases hs : iterStep e st with
    | ret s stx =>
      rw [hs] at h
      simp only [stepStatus, Option.some.injEq] at h
      subst h
      rcases iterStep_ret_inv e st _ _ hs with
        ⟨_, hc, _⟩ | ⟨hS, _⟩ | ⟨hS, _⟩ | ⟨hS, _⟩
      · exact hc
      · exact absurd hS (by simp)
      · exact absurd hS (by simp)
      · exact absurd hS (by simp)
    | cont stx =>
      rw [hs] at h
      simp [stepStatus] at h
  · intro hc
    rw [iterStep_of_conv e st hc]
    rfl

/-- The convergence condition only looks at fields the status write and
the norm write do not touch. -/
theorem convCond_setStatus_top (e : Env) (s0 : SState) (s : Status) :
    convergedCond e (setStatus (topState e s0) s) = convTest e (topState e s0) := by
  simp only [convergedCond, convTest, primalInfOf, dualInfOf, setStatus, topState, setInfNorms]

/-- C1 helper: a `SOLVED` outcome of the outer loop exits at a state
satisfying the convergence condition. -/
theorem outerLoop_solved (e : Env) :
    ∀ fuel s0 st2, outerLoop e fuel s0 = some (Status.SOLVED, st2) →
      convergedCond e st2 := by
  intro fuel
  induction fuel with
  | zero => intro s0 st2 h; simp [outerLoop] at h
  | succ n ih =>
    intro s0 st2 h
    simp only [outerLoop] at h
    split_ifs at h with hiter
    · cases hs : iterStep e s0 with
      | ret s stx =>
        rw [hs] at h
        simp only [Option.some.injEq, Prod.mk.injEq] at h
        obtain ⟨hse, hst⟩ := h
        rcases iterStep_ret_inv e s0 _ _ hs with
          ⟨_, hc, heq⟩ | ⟨hS, _⟩ | ⟨hS, _⟩ | ⟨hS, _⟩
        · subst hst; rw [heq, convCond_setStatus_top]; exact hc
        · rw [hse] at hS; exact absurd hS (by simp)
        · rw [hse] at hS; exact absurd hS (by simp)
        · rw [hse] at hS; exact absurd hS (by simp)
      | cont stx =>
        rw [hs] at h
        exact ih stx st2 h
    · simp only [Option.some.injEq, Prod.mk.injEq] at h
      exact absurd h.1 (by simp)

/-- C5 helper: the step reports `PRIMAL_INFEASIBLE` exactly when the
convergence test failed and the primal-infeasibility verdict holds. -/
theorem stepStatus_pinf (e : Env) (st : SState) :
    stepStatus (iterStep e st) = some Status.PRIMAL_INFEASIBLE ↔
      ¬ convTest e (topState e st) ∧ primalInfeasCond e (regState e st) := by
  constructor
  · intro h
    cases hs : iterStep e st with
    | ret s stx =>
      rw [hs] at h
      simp only [stepStatus, Option.some.injEq] at h
      subst h
      rcases iterStep_ret_inv e st _ _ hs with
        ⟨hS, _⟩ | ⟨_, hnc, hp, _⟩ | ⟨hS, _⟩ | ⟨hS, _⟩
      · exact absurd hS (by simp)
      · exact ⟨hnc, hp⟩
      · exact absurd hS (by simp)
      · exact absurd hS (by simp)
    | cont stx =>
      rw [hs] at h
      simp [stepStatus] at h
  · rintro ⟨h1, h2⟩
    unfold iterStep
    simp [h1, h2, stepStatus]

/-- C5 helper: the step reports `DUAL_INFEASIBLE` exactly when the
convergence test and the primal verdict failed and the dual verdict
holds. -/
theorem stepStatus_dinf (e : Env) (st : SState) :
    stepStatus (iterStep e st) = some Status.DUAL_INFEASIBLE ↔
      ¬ convTest e (topState e st) ∧ ¬ primalInfeasCond e (regState e st) ∧
        dualInfeasCond e (regState e st) := by
  constructor
  · intro h
    cases hs : iterStep e st with
    | ret s stx =>
      rw [hs] at h
      simp only [stepStatus, Option.some.injEq] at h
      subst h
      rcases iterStep_ret_inv e st _ _ hs with
        ⟨hS, _⟩ | ⟨hS, _⟩ | ⟨_, hnc, hnp, hd, _⟩ | ⟨hS, _⟩
      · exact absurd hS (by simp)
      · exact absurd hS (by simp)
      · exact ⟨hnc, hnp, hd⟩
      · exact absurd hS (by simp)
    | cont stx =>
      rw [hs] at h
      simp [stepStatus] at h
  · rintro ⟨h1, h2, h3⟩
    unfold iterStep
    simp [h1, h2, h3, stepStatus]

/-- Inversion for continuing step outcomes. -/
theorem iterStep_cont_inv (e : Env) (st : SState) (st2 : SState)
    (h : iterStep e st = .cont st2) :
    ¬ convTest e (topState e st) ∧ ¬ primalInfeasCond e (regState e st) ∧
    ¬ dualInfeasCond e (regState e st) ∧
    ((e.kktFact (preFactorState e st).nFact = true ∧
        ((0 < e.data.m + e.data.n_lb + e.data.n_ub ∧
            st2 = innerUpdate e (postFactOk e st)) ∨
         (¬ 0 < e.data.m + e.data.n_lb + e.data.n_ub ∧
            st2 = fullStepUpdate e (postFactOk e st)))) ∨
     (e.kktFact (preFactorState e st).nFact = false ∧
        (postFactFail e st).info.factor_retires < e.set.max_factor_retires ∧
        st2 = mainRetryT e (postFactFail e st))) := by
  unfold iterStep at h
  split_ifs at h with h1 h2 h3 h4 h5 h6 <;> (cases h; simp_all)


/-- C1: a solve that enters the outer loop returns `SOLVED` exactly when,
at the convergence test at the top of an outer iteration,
`primal_inf < feas_tol_abs + feas_tol_rel * primal_rel_inf` and
`dual_inf < feas_tol_abs + feas_tol_rel * dual_rel_inf` and
`mu < dual_tol`, where `primal_inf` is the maximum of the unscaled
infinity norms of `r_y_nr`, `r_z_nr` and the live heads of `r_z_lb_nr`,
`r_z_ub_nr`, and `dual_inf` is the unscaled infinity norm of `r_x_nr`
(`convergedCond` on the residual-refreshed state).  Part one is the exact
characterisation of one outer pass; part two shows every `SOLVED` exit of
the outer loop happens at a state satisfying the condition. -/
theorem C1_solved_iff_convergence (e : Env) (st : SState) :
    (stepStatus (iterStep e st) = some Status.SOLVED ↔
      convergedCond e (refreshAtTop e st)) ∧
    (∀ fuel s0 st2, outerLoop e fuel s0 = some (Status.SOLVED, st2) →
      convergedCond e st2) := by
  refine ⟨?_, outerLoop_solved e⟩
  rw [← convTest_eq]
  exact stepStatus_solved e st

/-- C1 witness: the empty problem with loose tolerances converges at the
first outer iteration, and the exit state indeed satisfies the
convergence condition. -/
theorem C1_witness :
    convergedCond envOk (((outerLoop envOk 1 st0).getD (Status.UNSOLVED, st0)).2) :=
  (C1_solved_iff_convergence envOk st0).2 1 st0
    (((outerLoop envOk 1 st0).getD (Status.UNSOLVED, st0)).2)
    (by with_unfolding_all rfl)

/-- C5: within an outer iteration (the convergence return precedes the
infeasibility tests, and the primal test precedes the dual one), the
solver returns `PRIMAL_INFEASIBLE` exactly when `no_dual_update > 5`, the
unscaled infinity norm of the dual proximal gaps
(`lambda - y`, `nu - z`, `nu_lb - z_lb`, `nu_ub - z_ub`) exceeds `1e10`,
and the unscaled infinity norm of the regularised residuals `r_y`, `r_z`,
`r_z_lb`, `r_z_ub` is below `feas_tol_abs`; symmetrically it returns
`DUAL_INFEASIBLE` exactly when `no_primal_update > 5`,
`‖x - zeta‖∞ > 1e10` (unscaled) and `‖r_x‖∞ < feas_tol_abs` (unscaled). -/
theorem C5_infeasibility_iff (e : Env) (st : SState) :
    (stepStatus (iterStep e st) = some Status.PRIMAL_INFEASIBLE ↔
      ¬ convergedCond e (refreshAtTop e st) ∧
        primalInfeasCond e (regState e st)) ∧
    (stepStatus (iterStep e st) = some Status.DUAL_INFEASIBLE ↔
      ¬ convergedCond e (refreshAtTop e st) ∧
        ¬ primalInfeasCond e (regState e st) ∧
        dualInfeasCond e (regState e st)) := by
  rw [← convTest_eq]
  exact ⟨stepStatus_pinf e st, stepStatus_dinf e st⟩


/-! Further frame lemmas (used for the factor-retry analysis). -/

theorem iterInc_x (e : Env) (st : SState) : (iterInc e st).x = st.x := by
  unfold iterInc; dsimp only; split <;> rfl

theorem iterInc_y (e : Env) (st : SState) : (iterInc e st).y = st.y := by
  unfold iterInc; dsimp only; split <;> rfl

theorem iterInc_z (e : Env) (st : SState) : (iterInc e st).z = st.z := by
  unfold iterInc; dsimp only; split <;> rfl

theorem iterInc_z_lb (e : Env) (st : SState) : (iterInc e st).z_lb = st.z_lb := by
  unfold iterInc; dsimp only; split <;> rfl

theorem iterInc_z_ub (e : Env) (st : SState) : (iterInc e st).z_ub = st.z_ub := by
  unfold iterInc; dsimp only; split <;> rfl

theorem iterInc_s (e : Env) (st : SState) : (iterInc e st).s = st.s := by
  unfold iterInc; dsimp only; split <;> rfl

theorem iterInc_s_lb (e : Env) (st : SState) : (iterInc e st).s_lb = st.s_lb := by
  unfold iterInc; dsimp only; split <;> rfl

theorem iterInc_s_ub (e : Env) (st : SState) : (iterInc e st).s_ub = st.s_ub := by
  unfold iterInc; dsimp only; split <;> rfl

theorem iterInc_rx_nr (e : Env) (st : SState) : (iterInc e st).rx_nr = st.rx_nr := by
  unfold iterInc; dsimp only; split <;> rfl

theorem iterInc_ry_nr (e : Env) (st : SState) : (iterInc e st).ry_nr = st.ry_nr := by
  unfold iterInc; dsimp only; split <;> rfl

theorem iterInc_rz_nr (e : Env) (st : SState) : (iterInc e st).rz_nr = st.rz_nr := by
  unfold iterInc; dsimp only; split <;> rfl

theorem iterInc_rz_lb_nr (e : Env) (st : SState) : (iterInc e st).rz_lb_nr = st.rz_lb_nr := by
  unfold iterInc; dsimp only; split <;> rfl

theorem iterInc_rz_ub_nr (e : Env) (st : SState) : (iterInc e st).rz_ub_nr = st.rz_ub_nr := by
  unfold iterInc; dsimp only; split <;> rfl

theorem iterInc_pri (e : Env) (st : SState) : (iterInc e st).primal_rel_inf = st.primal_rel_inf := by
  unfold iterInc; dsimp only; split <;> rfl

theorem iterInc_dri (e : Env) (st : SState) : (iterInc e st).dual_rel_inf = st.dual_rel_inf := by
  unfold iterInc; dsimp only; split <;> rfl

theorem iterInc_nFact (e : Env) (st : SState) : (iterInc e st).nFact = st.nFact := by
  unfold iterInc; dsimp only; split <;> rfl

theorem refresh_of_zero (e : Env) (st : SState) (h : st.info.iter = 0) :
    refreshAtTop e st = updateNrResiduals e st := by
  unfold refreshAtTop; simp [h]

theorem refresh_of_ne (e : Env) (st : SState) (h : ¬ st.info.iter = 0) :
    refreshAtTop e st = st := by
  unfold refreshAtTop; simp [h]

theorem topState_info_eq (e : Env) (st : SState) :
    (topState e st).info =
      {st.info with primal_inf := primalInfOf e (refreshAtTop e st),
                    dual_inf := dualInfOf e (refreshAtTop e st)} := by
  simp only [topState, setInfNorms, refresh_info]

theorem topState_pri (e : Env) (st : SState) :
    (topState e st).primal_rel_inf = (refreshAtTop e st).primal_rel_inf := rfl

theorem topState_dri (e : Env) (st : SState) :
    (topState e st).dual_rel_inf = (refreshAtTop e st).dual_rel_inf := rfl

/-- The stored-field convergence test, unfolded to the residual norms at
the refreshed state. -/
theorem convTest_top_iff (e : Env) (st : SState) :
    convTest e (topState e st) ↔
      (primalInfOf e (refreshAtTop e st) <
         e.set.feas_tol_abs + e.set.feas_tol_rel * (refreshAtTop e st).primal_rel_inf ∧
       dualInfOf e (refreshAtTop e st) <
         e.set.feas_tol_abs + e.set.feas_tol_rel * (refreshAtTop e st).dual_rel_inf ∧
       st.info.mu < e.set.dual_tol) := by
  unfold convTest
  rw [topState_info_eq, topState_pri, topState_dri]

theorem updateNr_ry_nr (e : Env) (st : SState) :
    (updateNrResiduals e st).ry_nr =
      (nrOf e st.x st.y st.z st.z_lb st.z_ub st.s st.s_lb st.s_ub).ry := rfl

theorem updateNr_rz_nr (e : Env) (st : SState) :
    (updateNrResiduals e st).rz_nr =
      (nrOf e st.x st.y st.z st.z_lb st.z_ub st.s st.s_lb st.s_ub).rz := rfl

theorem updateNr_rx_nr (e : Env) (st : SState) :
    (updateNrResiduals e st).rx_nr =
      (nrOf e st.x st.y st.z st.z_lb st.z_ub st.s st.s_lb st.s_ub).rx := rfl

theorem updateNr_rz_lb_nr (e : Env) (st : SState) :
    (updateNrResiduals e st).rz_lb_nr = fun i =>
      if i < e.data.n_lb then
        (nrOf e st.x st.y st.z st.z_lb st.z_ub st.s st.s_lb st.s_ub).rz_lb i
      else st.rz_lb_nr i := rfl

theorem updateNr_rz_ub_nr (e : Env) (st : SState) :
    (updateNrResiduals e st).rz_ub_nr = fun i =>
      if i < e.data.n_ub then
        (nrOf e st.x st.y st.z st.z_lb st.z_ub st.s st.s_lb st.s_ub).rz_ub i
      else st.rz_ub_nr i := rfl

theorem updateNr_pri (e : Env) (st : SState) :
    (updateNrResiduals e st).primal_rel_inf =
      (nrOf e st.x st.y st.z st.z_lb st.z_ub st.s st.s_lb st.s_ub).pri := rfl

theorem updateNr_dri (e : Env) (st : SState) :
    (updateNrResiduals e st).dual_rel_inf =
      (nrOf e st.x st.y st.z st.z_lb st.z_ub st.s st.s_lb st.s_ub).dri := rfl

/-- Truncation ignores whatever sits past the logical length. -/
theorem headVec_ite_tail (f g : Vec) (k : ℕ) :
    headVec (fun i => if i < k then f i else g i) k = headVec f k := by
  funext i
  unfold headVec
  by_cases h : i < k <;> simp [h]


/-- A factorisation retry leaves the convergence verdict of the next pass
unchanged: it only inflates `rho`, `delta`, bumps the retry counter and
restores `iter`, while the iterate and the non-regularised residuals are
untouched. -/
theorem conv_retry (e : Env) (st : SState) :
    convTest e (topState e (mainRetryT e (postFactFail e st))) ↔
      convTest e (topState e st) := by
  set st2 := mainRetryT e (postFactFail e st) with hdef
  have hmu : st2.info.mu = st.info.mu := by
    simp [hdef, mainRetryT, postFactFail, preFactorState, stageScalings,
          iterInc_mu, regState, regResiduals, topState_info_eq]
  have hiter : st2.info.iter = st.info.iter := by
    simp [hdef, mainRetryT, postFactFail, preFactorState, stageScalings,
          iterInc_iter, regState, regResiduals, topState_info_eq]
  have hx : st2.x = st.x := by
    simp [hdef, mainRetryT, postFactFail, preFactorState, stageScalings,
          iterInc_x, regState, regResiduals, topState, setInfNorms, refresh_x]
  have hy : st2.y = st.y := by
    simp [hdef, mainRetryT, postFactFail, preFactorState, stageScalings,
          iterInc_y, regState, regResiduals, topState, setInfNorms, refresh_y]
  have hz : st2.z = st.z := by
    simp [hdef, mainRetryT, postFactFail, preFactorState, stageScalings,
          iterInc_z, regState, regResiduals, topState, setInfNorms, refresh_z]
  have hzlb : st2.z_lb = st.z_lb := by
    simp [hdef, mainRetryT, postFactFail, preFactorState, stageScalings,
          iterInc_z_lb, regState, regResiduals, topState, setInfNorms, refresh_z_lb]
  have hzub : st2.z_ub = st.z_ub := by
    simp [hdef, mainRetryT, postFactFail, preFactorState, stageScalings,
          iterInc_z_ub, regState, regResiduals, topState, setInfNorms, refresh_z_ub]
  have hs : st2.s = st.s := by
    simp [hdef, mainRetryT, postFactFail, preFactorState, stageScalings,
          iterInc_s, regState, regResiduals, topState, setInfNorms, refresh_s]
  have hslb : st2.s_lb = st.s_lb := by
    simp [hdef, mainRetryT, postFactFail, preFactorState, stageScalings,
          iterInc_s_lb, regState, regResiduals, topState, setInfNorms, refresh_s_lb]
  have hsub : st2.s_ub = st.s_ub := by
    simp [hdef, mainRetryT, postFactFail, preFactorState, stageScalings,
          iterInc_s_ub, regState, regResiduals, topState, setInfNorms, refresh_s_ub]
  have hrx : st2.rx_nr = (refreshAtTop e st).rx_nr := by
    simp [hdef, mainRetryT, postFactFail, preFactorState, stageScalings,
          iterInc_rx_nr, regState, regResiduals, topState, setInfNorms]
  have hry : st2.ry_nr = (refreshAtTop e st).ry_nr := by
    simp [hdef, mainRetryT, postFactFail, preFactorState, stageScalings,
          iterInc_ry_nr, regState, regResiduals, topState, setInfNorms]
  have hrz : st2.rz_nr = (refreshAtTop e st).rz_nr := by
    simp [hdef, mainRetryT, postFactFail, preFactorState, stageScalings,
          iterInc_rz_nr, regState, regResiduals, topState, setInfNorms]
  have hrzlb : st2.rz_lb_nr = (refreshAtTop e st).rz_lb_nr := by
    simp [hdef, mainRetryT, postFactFail, preFactorState, stageScalings,
          iterInc_rz_lb_nr, regState, regResiduals, topState, setInfNorms]
  have hrzub : st2.rz_ub_nr = (refreshAtTop e st).rz_ub_nr := by
    simp [hdef, mainRetryT, postFactFail, preFactorState, stageScalings,
          iterInc_rz_ub_nr, regState, regResiduals, topState, setInfNorms]
  have hpr : st2.primal_rel_inf = (refreshAtTop e st).primal_rel_inf := by
    simp [hdef, mainRetryT, postFactFail, preFactorState, stageScalings,
          iterInc_pri, regState, regResiduals, topState, setInfNorms]
  have hdr : st2.dual_rel_inf = (refreshAtTop e st).dual_rel_inf := by
    simp [hdef, mainRetryT, postFactFail, preFactorState, stageScalings,
          iterInc_dri, regState, regResiduals, topState, setInfNorms]
  rw [convTest_top_iff, convTest_top_iff, hmu]
  by_cases hi : st.info.iter = 0
  · have hi2 : st2.info.iter = 0 := by rw [hiter, hi]
    rw [refresh_of_zero e st2 hi2, refresh_of_zero e st hi]
    simp only [primalInfOf, dualInfOf, updateNr_rx_nr, updateNr_ry_nr,
      updateNr_rz_nr, updateNr_rz_lb_nr, updateNr_rz_ub_nr, updateNr_pri,
      updateNr_dri, headVec_ite_tail, hx, hy, hz, hzlb, hzub, hs, hslb, hsub]
  · have hi2 : ¬ st2.info.iter = 0 := by rw [hiter]; exact hi
    rw [refresh_of_ne e st2 hi2, refresh_of_ne e st hi]
    rw [refresh_of_ne e st hi] at hrx hry hrz hrzlb hrzub hpr hdr
    simp only [primalInfOf, dualInfOf, hrx, hry, hrz, hrzlb, hrzub, hpr, hdr]


theorem proxReg_retires (e : Env) (r : ℚ) (t : SState) :
    (proxRegUpdate e r t).info.factor_retires = t.info.factor_retires := by
  unfold proxRegUpdate; dsimp only; split_ifs <;> rfl

theorem proxReg0_retires (e : Env) (t : SState) :
    (proxRegUpdate0 e t).info.factor_retires = t.info.factor_retires := by
  unfold proxRegUpdate0; dsimp only; split_ifs <;> rfl

theorem innerUpdate_retires (e : Env) (t : SState) :
    (innerUpdate e t).info.factor_retires = t.info.factor_retires := by
  unfold innerUpdate; dsimp only
  rw [proxReg_retires, updateNr_info]

theorem fullStep_retires (e : Env) (t : SState) :
    (fullStepUpdate e t).info.factor_retires = t.info.factor_retires := by
  unfold fullStepUpdate; dsimp only
  rw [proxReg0_retires, updateNr_info]

theorem topState_retires (e : Env) (st : SState) :
    (topState e st).info.factor_retires = st.info.factor_retires := by
  rw [topState_info_eq]

theorem setStatus_retires (st : SState) (s : Status) :
    (setStatus st s).info.factor_retires = st.info.factor_retires := rfl

theorem postFactOk_retires (e : Env) (st : SState) :
    (postFactOk e st).info.factor_retires = 0 := rfl

theorem postFactFail_retires (e : Env) (st : SState) :
    (postFactFail e st).info.factor_retires = st.info.factor_retires := by
  simp [postFactFail, preFactorState, stageScalings, iterInc_retires,
        regState, regResiduals, topState_info_eq]

theorem postFactFail_rho (e : Env) (st : SState) :
    (postFactFail e st).info.rho = st.info.rho := by
  simp [postFactFail, preFactorState, stageScalings, iterInc_rho,
        regState, regResiduals, topState_info_eq]

theorem postFactFail_delta (e : Env) (st : SState) :
    (postFactFail e st).info.delta = st.info.delta := by
  simp [postFactFail, preFactorState, stageScalings, iterInc_delta,
        regState, regResiduals, topState_info_eq]

theorem postFactFail_iter (e : Env) (st : SState) :
    (postFactFail e st).info.iter = st.info.iter + 1 := by
  simp [postFactFail, preFactorState, stageScalings, iterInc_iter,
        regState, regResiduals, topState_info_eq]

theorem mainRetry_iter_eq (e : Env) (st : SState) :
    (mainRetryT e (postFactFail e st)).info.iter = st.info.iter := by
  show (postFactFail e st).info.iter - 1 = st.info.iter
  rw [postFactFail_iter]
  omega

/-- C2 helper: along the outer loop, a positive retry counter can only be
observed while the convergence test of the pending pass is false and the
iteration bound is not yet hit, so `SOLVED` and `MAX_ITER_REACHED` exits
always report `factor_retires = 0`. -/
theorem outerLoop_retires (e : Env) :
    ∀ fuel st s st2,
      (st.info.factor_retires = 0 ∨
        (¬ convTest e (topState e st) ∧ st.info.iter < e.set.max_iter)) →
      outerLoop e fuel st = some (s, st2) →
      (s = Status.SOLVED ∨ s = Status.MAX_ITER_REACHED) →
      st2.info.factor_retires = 0 := by
  intro fuel
  induction fuel with
  | zero => intro st s st2 _ h _; simp [outerLoop] at h
  | succ n ih =>
    intro st s st2 hinv h hs
    simp only [outerLoop] at h
    split_ifs at h with hiter
    · cases hstep : iterStep e st with
      | ret s1 stx =>
        rw [hstep] at h
        simp only [Option.some.injEq, Prod.mk.injEq] at h
        obtain ⟨h1, h2⟩ := h
        subst h1; subst h2
        rcases iterStep_ret_inv e st _ _ hstep with
          ⟨_, hc, heq⟩ | ⟨hS, _⟩ | ⟨hS, _⟩ | ⟨hS, _⟩
        · rcases hinv with h0 | ⟨hnc, _⟩
          · rw [heq, setStatus_retires, topState_retires]; exact h0
          · exact absurd hc hnc
        · rcases hs with h | h <;> (rw [h] at hS; exact absurd hS (by simp))
        · rcases hs with h | h <;> (rw [h] at hS; exact absurd hS (by simp))
        · rcases hs with h | h <;> (rw [h] at hS; exact absurd hS (by simp))
      | cont stx =>
        rw [hstep] at h
        rcases iterStep_cont_inv e st stx hstep with ⟨hnc, _, _, hcase⟩
        rcases hcase with ⟨_, hor⟩ | ⟨_, _, heq⟩
        · have h0 : stx.info.factor_retires = 0 := by
            rcases hor with ⟨_, he⟩ | ⟨_, he⟩ <;> rw [he]
            · rw [innerUpdate_retires, postFactOk_retires]
            · rw [fullStep_retires, postFactOk_retires]
          exact ih stx s st2 (Or.inl h0) h hs
        · have hnc2 : ¬ convTest e (topState e stx) := by
            rw [heq, conv_retry]; exact hnc
          have hit2 : stx.info.iter < e.set.max_iter := by
            rw [heq, mainRetry_iter_eq]; exact hiter
          exact ih stx s st2 (Or.inr ⟨hnc2, hit2⟩) h hs
    · simp only [Option.some.injEq, Prod.mk.injEq] at h
      obtain ⟨h1, h2⟩ := h
      rcases hinv with h0 | ⟨_, hlt⟩
      · rw [← h2, setStatus_retires]; exact h0
      · exact absurd hlt hiter



/-- C2 (amended): factorisation-retry semantics.  (1) In the pre-loop
retry, a failed `factorize()` with `factor_retires < max_factor_retires`
multiplies `delta` and `rho` by 100, increments `factor_retires`, raises
`reg_limit` to `min(10 reg_limit, feas_tol_abs)` and retries; (2) with the
budget exhausted the loop signals the `NUMERICS` return.  (3)/(4) the same
in the main loop, where the retry additionally rolls `iter` back by one
(net: `iter` unchanged across the retry pass) and retries via `continue`,
and exhaustion returns `NUMERICS`.  (5) After a successful main-loop
factorisation the continuing state has `factor_retires = 0`.  (6) Hence
every `SOLVED` or `MAX_ITER_REACHED` return reports `factor_retires = 0`.
(The original claim's stronger clause - that every non-`NUMERICS` return
reports 0 - fails for early returns and for infeasibility returns right
after a retry; see the counterexample.) -/
theorem C2_factor_retry_semantics :
    (∀ (e : Env) (fuel : ℕ) (st : SState),
       e.kktFact st.nFact = false →
       st.info.factor_retires < e.set.max_factor_retires →
       initFactorLoop e (fuel + 1) st =
         initFactorLoop e fuel (initRetryT e {st with nFact := st.nFact + 1}) ∧
       (initRetryT e st).info.delta = st.info.delta * 100 ∧
       (initRetryT e st).info.rho = st.info.rho * 100 ∧
       (initRetryT e st).info.factor_retires = st.info.factor_retires + 1 ∧
       (initRetryT e st).info.reg_limit =
         min (10 * st.info.reg_limit) e.set.feas_tol_abs) ∧
    (∀ (e : Env) (fuel : ℕ) (st : SState),
       e.kktFact st.nFact = false →
       ¬ st.info.factor_retires < e.set.max_factor_retires →
       initFactorLoop e (fuel + 1) st = .fail {st with nFact := st.nFact + 1}) ∧
    (∀ (e : Env) (st : SState),
       ¬ convTest e (topState e st) → ¬ primalInfeasCond e (regState e st) →
       ¬ dualInfeasCond e (regState e st) →
       e.kktFact (preFactorState e st).nFact = false →
       st.info.factor_retires < e.set.max_factor_retires →
       iterStep e st = .cont (mainRetryT e (postFactFail e st)) ∧
       (mainRetryT e (postFactFail e st)).info.rho = st.info.rho * 100 ∧
       (mainRetryT e (postFactFail e st)).info.delta = st.info.delta * 100 ∧
       (mainRetryT e (postFactFail e st)).info.factor_retires =
         st.info.factor_retires + 1 ∧
       (mainRetryT e (postFactFail e st)).info.iter = st.info.iter ∧
       (mainRetryT e (postFactFail e st)).info.reg_limit =
         min (10 * (postFactFail e st).info.reg_limit) e.set.feas_tol_abs) ∧
    (∀ (e : Env) (st : SState),
       ¬ convTest e (topState e st) → ¬ primalInfeasCond e (regState e st) →
       ¬ dualInfeasCond e (regState e st) →
       e.kktFact (preFactorState e st).nFact = false →
       ¬ st.info.factor_retires < e.set.max_factor_retires →
       iterStep e st = .ret .NUMERICS (setStatus (postFactFail e st) .NUMERICS)) ∧
    (∀ (e : Env) (st stx : SState),
       iterStep e st = .cont stx →
       e.kktFact (preFactorState e st).nFact = true →
       stx.info.factor_retires = 0) ∧
    (∀ (e : Env) (fuel : ℕ) (st : SState) (s : Status) (st2 : SState),
       st.info.factor_retires = 0 →
       outerLoop e fuel st = some (s, st2) →
       s = Status.SOLVED ∨ s = Status.MAX_ITER_REACHED →
       st2.info.factor_retires = 0) := by
  refine ⟨?_, ?_, ?_, ?_, ?_, ?_⟩
  · intro e fuel st h1 h2
    refine ⟨?_, rfl, rfl, rfl, rfl⟩
    simp only [initFactorLoop]
    simp [h1, h2]
  · intro e fuel st h1 h2
    simp only [initFactorLoop]
    simp [h1, h2]
  · intro e st h1 h2 h3 h4 h5
    refine ⟨?_, ?_, ?_, ?_, mainRetry_iter_eq e st, rfl⟩
    · unfold iterStep
      have h5x : (postFactFail e st).info.factor_retires < e.set.max_factor_retires := by
        rw [postFactFail_retires]; exact h5
      simp [h1, h2, h3, h4, h5x]
    · show (postFactFail e st).info.rho * 100 = st.info.rho * 100
      rw [postFactFail_rho]
    · show (postFactFail e st).info.delta * 100 = st.info.delta * 100
      rw [postFactFail_delta]
    · show (postFactFail e st).info.factor_retires + 1 = st.info.factor_retires + 1
      rw [postFactFail_retires]
  · intro e st h1 h2 h3 h4 h5
    unfold iterStep
    have h5x : ¬ (postFactFail e st).info.factor_retires < e.set.max_factor_retires := by
      rw [postFactFail_retires]; exact h5
    simp [h1, h2, h3, h4, h5x]
  · intro e st stx hstep hf
    rcases iterStep_cont_inv e st stx hstep with ⟨_, _, _, hcase⟩
    rcases hcase with ⟨_, hor⟩ | ⟨hf2, _, _⟩
    · rcases hor with ⟨_, he⟩ | ⟨_, he⟩ <;> rw [he]
      · rw [innerUpdate_retires, postFactOk_retires]
      · rw [fullStep_retires, postFactOk_retires]
    · rw [hf] at hf2; exact absurd hf2 (by simp)
  · intro e fuel st s st2 h0 h hs
    exact outerLoop_retires e fuel st s st2 (Or.inl h0) h hs

set_option maxRecDepth 4000 in
set_option maxHeartbeats 4000000 in
/-- C2 counterexample: the claim "at every return with a status other than
NUMERICS the reported factor_retires equals 0" is false.  A solve whose
factorisations always fail returns `NUMERICS` with `factor_retires = 1`
(`max_factor_retires = 1`); a subsequent solve with invalid settings
returns `INVALID_SETTINGS` - before the info reset - still reporting
`factor_retires = 1`.  Moreover a solve can return `PRIMAL_INFEASIBLE`
on the pass immediately after a factorisation retry (the inflated `delta`
changes the regularised residuals read by the infeasibility test), also
reporting `factor_retires = 1`. -/
theorem C2_counterexample :
    (solve_impl envN st0).1 = Status.NUMERICS ∧
    stAfterN.info.factor_retires = 1 ∧
    (solve_impl envBad stAfterN).1 = Status.INVALID_SETTINGS ∧
    ¬ ((solve_impl envBad stAfterN).1 = Status.NUMERICS) ∧
    (solve_impl envBad stAfterN).2.info.factor_retires = 1 ∧
    (solve_impl envT stT).1 = Status.PRIMAL_INFEASIBLE ∧
    (solve_impl envT stT).2.info.factor_retires = 1 := by
  with_unfolding_all decide

set_option maxRecDepth 4000 in
/-- C2 witness: the retry conjuncts applied at concrete inputs. -/
theorem C2_witness :
    (initFactorLoop envN (1 + 1) st0 =
       initFactorLoop envN 1 (initRetryT envN {st0 with nFact := st0.nFact + 1}) ∧
     (initRetryT envN st0).info.delta = st0.info.delta * 100 ∧
     (initRetryT envN st0).info.rho = st0.info.rho * 100 ∧
     (initRetryT envN st0).info.factor_retires = st0.info.factor_retires + 1 ∧
     (initRetryT envN st0).info.reg_limit =
       min (10 * st0.info.reg_limit) envN.set.feas_tol_abs) ∧
    (initFactorLoop envN (1 + 1) stR1 = .fail {stR1 with nFact := stR1.nFact + 1}) ∧
    (iterStep envN stMu1 = .cont (mainRetryT envN (postFactFail envN stMu1)) ∧
     (mainRetryT envN (postFactFail envN stMu1)).info.rho = stMu1.info.rho * 100 ∧
     (mainRetryT envN (postFactFail envN stMu1)).info.delta = stMu1.info.delta * 100 ∧
     (mainRetryT envN (postFactFail envN stMu1)).info.factor_retires =
       stMu1.info.factor_retires + 1 ∧
     (mainRetryT envN (postFactFail envN stMu1)).info.iter = stMu1.info.iter ∧
     (mainRetryT envN (postFactFail envN stMu1)).info.reg_limit =
       min (10 * (postFactFail envN stMu1).info.reg_limit) envN.set.feas_tol_abs) ∧
    (iterStep envN stMu1R1 =
       .ret .NUMERICS (setStatus (postFactFail envN stMu1R1) .NUMERICS)) ∧
    ((stepState (iterStep envM stM)).info.factor_retires = 0) ∧
    (((outerLoop envOk 1 st0).getD (Status.UNSOLVED, st0)).2.info.factor_retires = 0) := by
  refine ⟨?_, ?_, ?_, ?_, ?_, ?_⟩
  · exact C2_factor_retry_semantics.1 envN 1 st0
      (by with_unfolding_all decide) (by with_unfolding_all decide)
  · exact C2_factor_retry_semantics.2.1 envN 1 stR1
      (by with_unfolding_all decide) (by with_unfolding_all decide)
  · exact C2_factor_retry_semantics.2.2.1 envN stMu1
      (by with_unfolding_all decide) (by with_unfolding_all decide)
      (by with_unfolding_all decide) (by with_unfolding_all decide)
      (by with_unfolding_all decide)
  · exact C2_factor_retry_semantics.2.2.2.1 envN stMu1R1
      (by with_unfolding_all decide) (by with_unfolding_all decide)
      (by with_unfolding_all decide) (by with_unfolding_all decide)
      (by with_unfolding_all decide)
  · exact C2_factor_retry_semantics.2.2.2.2.1 envM stM
      (stepState (iterStep envM stM)) (by with_unfolding_all rfl)
      (by with_unfolding_all decide)
  · exact C2_factor_retry_semantics.2.2.2.2.2 envOk 1 st0 Status.SOLVED
      (((outerLoop envOk 1 st0).getD (Status.UNSOLVED, st0)).2)
      (by with_unfolding_all decide) (by with_unfolding_all rfl) (Or.inl rfl)


/-! Fraction-to-boundary lemmas (C3). -/

theorem alphaFold_le_gen (s d : Vec) (l : List ℕ) (a0 : ℚ) :
    l.foldl (fun a i => if d i < 0 then min a (-(s i) / d i) else a) a0 ≤ a0 := by
  induction l generalizing a0 with
  | nil => simp
  | cons i l ih =>
    simp only [List.foldl_cons]
    refine le_trans (ih _) ?_
    split
    · exact min_le_left _ _
    · exact le_rfl

theorem alphaFold_mem_le (s d : Vec) (l : List ℕ) (a0 : ℚ) (i : ℕ)
    (hi : i ∈ l) (hd : d i < 0) :
    l.foldl (fun a j => if d j < 0 then min a (-(s j) / d j) else a) a0 ≤
      -(s i) / d i := by
  induction l generalizing a0 with
  | nil => cases hi
  | cons j l ih =>
    simp only [List.foldl_cons]
    rcases List.mem_cons.mp hi with he | hm
    · subst he
      refine le_trans (alphaFold_le_gen s d l _) ?_
      rw [if_pos hd]
      exact min_le_right _ _
    · exact ih _ hm

theorem alphaFold_pos_gen (s d : Vec) (l : List ℕ) (a0 : ℚ)
    (h0 : 0 < a0) (hs : ∀ i ∈ l, 0 < s i) :
    0 < l.foldl (fun a j => if d j < 0 then min a (-(s j) / d j) else a) a0 := by
  induction l generalizing a0 with
  | nil => simpa
  | cons j l ih =>
    simp only [List.foldl_cons]
    refine ih _ ?_ (fun i hi => hs i (List.mem_cons_of_mem j hi))
    by_cases hd : d j < 0
    · rw [if_pos hd]
      refine lt_min h0 ?_
      refine div_pos_iff.mpr (Or.inr ⟨?_, hd⟩)
      have hj := hs j (List.mem_cons_self j l)
      linarith
    · rw [if_neg hd]
      exact h0

theorem alphaFold_le (s d : Vec) (k : ℕ) (a0 : ℚ) : alphaFold s d k a0 ≤ a0 :=
  alphaFold_le_gen s d (List.range k) a0

theorem alphaFold_le_of_lt (s d : Vec) (k : ℕ) (a0 : ℚ) (i : ℕ)
    (h : i < k) (hd : d i < 0) : alphaFold s d k a0 ≤ -(s i) / d i :=
  alphaFold_mem_le s d (List.range k) a0 i (List.mem_range.mpr h) hd

theorem alphaFold_pos (s d : Vec) (k : ℕ) (a0 : ℚ)
    (h0 : 0 < a0) (hs : ∀ i < k, 0 < s i) : 0 < alphaFold s d k a0 :=
  alphaFold_pos_gen s d (List.range k) a0 h0 (fun i hi => hs i (List.mem_range.mp hi))

theorem alphaAll_pos (e : Env) (s slb sub d dlb dub : Vec)
    (hs : ∀ i < e.data.m, 0 < s i) (hslb : ∀ i < e.data.n_lb, 0 < slb i)
    (hsub : ∀ i < e.data.n_ub, 0 < sub i) :
    0 < alphaAll e s slb sub d dlb dub := by
  unfold alphaAll
  exact alphaFold_pos _ _ _ _
    (alphaFold_pos _ _ _ _ (alphaFold_pos _ _ _ _ one_pos hs) hslb) hsub

theorem alphaAll_le_m (e : Env) (s slb sub d dlb dub : Vec) (i : ℕ)
    (h : i < e.data.m) (hd : d i < 0) :
    alphaAll e s slb sub d dlb dub ≤ -(s i) / d i := by
  unfold alphaAll
  refine le_trans (alphaFold_le _ _ _ _) ?_
  refine le_trans (alphaFold_le _ _ _ _) ?_
  exact alphaFold_le_of_lt _ _ _ _ i h hd

theorem alphaAll_le_lb (e : Env) (s slb sub d dlb dub : Vec) (i : ℕ)
    (h : i < e.data.n_lb) (hd : dlb i < 0) :
    alphaAll e s slb sub d dlb dub ≤ -(slb i) / dlb i := by
  unfold alphaAll
  refine le_trans (alphaFold_le _ _ _ _) ?_
  exact alphaFold_le_of_lt _ _ _ _ i h hd

theorem alphaAll_le_ub (e : Env) (s slb sub d dlb dub : Vec) (i : ℕ)
    (h : i < e.data.n_ub) (hd : dub i < 0) :
    alphaAll e s slb sub d dlb dub ≤ -(sub i) / dub i :=
  alphaFold_le_of_lt _ _ _ _ i h hd

/-- One damped fraction-to-boundary step keeps a positive component
positive. -/
theorem fraction_step_pos (sv dv τ α : ℚ) (hs : 0 < sv) (ht0 : 0 < τ)
    (ht1 : τ < 1) (ha : 0 < α) (hb : dv < 0 → α ≤ -sv / dv) :
    0 < sv + α * τ * dv := by
  rcases le_or_lt 0 dv with h | h
  · have h5 : 0 ≤ α * τ * dv := mul_nonneg (mul_pos ha ht0).le h
    linarith
  · have hbb := hb h
    have h3 : -sv ≤ α * dv := (le_div_iff_of_neg h).mp hbb
    have h4 : α * dv < 0 := mul_neg_of_pos_of_neg ha h
    have h6 : 1 * (α * dv) < τ * (α * dv) := mul_lt_mul_of_neg_right ht1 h4
    nlinarith [h6, h3]

theorem proxReg_s (e : Env) (r : ℚ) (t : SState) : (proxRegUpdate e r t).s = t.s := by
  unfold proxRegUpdate; dsimp only; split_ifs <;> rfl

theorem proxReg_z (e : Env) (r : ℚ) (t : SState) : (proxRegUpdate e r t).z = t.z := by
  unfold proxRegUpdate; dsimp only; split_ifs <;> rfl

theorem proxReg_s_lb (e : Env) (r : ℚ) (t : SState) : (proxRegUpdate e r t).s_lb = t.s_lb := by
  unfold proxRegUpdate; dsimp only; split_ifs <;> rfl

theorem proxReg_s_ub (e : Env) (r : ℚ) (t : SState) : (proxRegUpdate e r t).s_ub = t.s_ub := by
  unfold proxRegUpdate; dsimp only; split_ifs <;> rfl

theorem proxReg_z_lb (e : Env) (r : ℚ) (t : SState) : (proxRegUpdate e r t).z_lb = t.z_lb := by
  unfold proxRegUpdate; dsimp only; split_ifs <;> rfl

theorem proxReg_z_ub (e : Env) (r : ℚ) (t : SState) : (proxRegUpdate e r t).z_ub = t.z_ub := by
  unfold proxRegUpdate; dsimp only; split_ifs <;> rfl


/-- C3: in an inner iteration with `m + n_lb + n_ub > 0`, for `tau` in
`(0,1)` and strictly positive live slacks and inequality duals at the
start, the fraction-to-boundary step lengths
`primal_step = tau * min(1, min over negative directions of -s_i/ds_i)`
and the analogous `dual_step` (computed by `alphaAll` exactly as the
source loops do) keep every live component of `s`, `s_lb`, `s_ub` and of
`z`, `z_lb`, `z_ub` strictly positive after the iterate update. -/
theorem C3_fraction_to_boundary (e : Env) (st : SState)
    (hN : 0 < e.data.m + e.data.n_lb + e.data.n_ub)
    (ht0 : 0 < e.set.tau) (ht1 : e.set.tau < 1)
    (hs : ∀ i < e.data.m, 0 < st.s i) (hz : ∀ i < e.data.m, 0 < st.z i)
    (hslb : ∀ i < e.data.n_lb, 0 < st.s_lb i)
    (hzlb : ∀ i < e.data.n_lb, 0 < st.z_lb i)
    (hsub : ∀ i < e.data.n_ub, 0 < st.s_ub i)
    (hzub : ∀ i < e.data.n_ub, 0 < st.z_ub i) :
    (∀ i < e.data.m, 0 < (innerUpdate e st).s i ∧ 0 < (innerUpdate e st).z i) ∧
    (∀ i < e.data.n_lb, 0 < (innerUpdate e st).s_lb i ∧ 0 < (innerUpdate e st).z_lb i) ∧
    (∀ i < e.data.n_ub, 0 < (innerUpdate e st).s_ub i ∧ 0 < (innerUpdate e st).z_ub i) := by
  unfold innerUpdate
  dsimp only
  simp only [proxReg_s, proxReg_z, proxReg_s_lb, proxReg_s_ub, proxReg_z_lb,
    proxReg_z_ub, updateNr_s, updateNr_z, updateNr_s_lb, updateNr_s_ub,
    updateNr_z_lb, updateNr_z_ub]
  refine ⟨fun i hi => ⟨?_, ?_⟩, fun i hi => ⟨?_, ?_⟩, fun i hi => ⟨?_, ?_⟩⟩
  · refine fraction_step_pos _ _ _ _ (hs i hi) ht0 ht1 ?_ ?_
    · exact alphaAll_pos e _ _ _ _ _ _ hs hslb hsub
    · intro hd
      exact alphaAll_le_m e _ _ _ _ _ _ i hi hd
  · refine fraction_step_pos _ _ _ _ (hz i hi) ht0 ht1 ?_ ?_
    · exact alphaAll_pos e _ _ _ _ _ _ hz hzlb hzub
    · intro hd
      exact alphaAll_le_m e _ _ _ _ _ _ i hi hd
  · rw [if_pos hi]
    refine fraction_step_pos _ _ _ _ (hslb i hi) ht0 ht1 ?_ ?_
    · exact alphaAll_pos e _ _ _ _ _ _ hs hslb hsub
    · intro hd
      exact alphaAll_le_lb e _ _ _ _ _ _ i hi hd
  · rw [if_pos hi]
    refine fraction_step_pos _ _ _ _ (hzlb i hi) ht0 ht1 ?_ ?_
    · exact alphaAll_pos e _ _ _ _ _ _ hz hzlb hzub
    · intro hd
      exact alphaAll_le_lb e _ _ _ _ _ _ i hi hd
  · rw [if_pos hi]
    refine fraction_step_pos _ _ _ _ (hsub i hi) ht0 ht1 ?_ ?_
    · exact alphaAll_pos e _ _ _ _ _ _ hs hslb hsub
    · intro hd
      exact alphaAll_le_ub e _ _ _ _ _ _ i hi hd
  · rw [if_pos hi]
    refine fraction_step_pos _ _ _ _ (hzub i hi) ht0 ht1 ?_ ?_
    · exact alphaAll_pos e _ _ _ _ _ _ hz hzlb hzub
    · intro hd
      exact alphaAll_le_ub e _ _ _ _ _ _ i hi hd

/-- C3 witness: a one-inequality instance with unit slack and dual and an
oracle returning descent direction `-1` everywhere. -/
theorem C3_witness :
    (∀ i < envM.data.m, 0 < (innerUpdate envM stM).s i ∧ 0 < (innerUpdate envM stM).z i) ∧
    (∀ i < envM.data.n_lb, 0 < (innerUpdate envM stM).s_lb i ∧ 0 < (innerUpdate envM stM).z_lb i) ∧
    (∀ i < envM.data.n_ub, 0 < (innerUpdate envM stM).s_ub i ∧ 0 < (innerUpdate envM stM).z_ub i) :=
  C3_fraction_to_boundary envM stM
    (by with_unfolding_all decide) (by with_unfolding_all decide)
    (by with_unfolding_all decide) (by with_unfolding_all decide)
    (by with_unfolding_all decide) (by with_unfolding_all decide)
    (by with_unfolding_all decide) (by with_unfolding_all decide)
    (by with_unfolding_all decide)


/-! Regularisation monotonicity lemmas (C4). -/

theorem max_decay_le (rl ρ f : ℚ) (h1 : rl ≤ ρ) (hf : f ≤ 1) (h0 : 0 ≤ ρ) :
    max rl (f * ρ) ≤ ρ := by
  refine max_le h1 ?_
  nlinarith

theorem proxReg_rho_le (e : Env) (r : ℚ) (t : SState) (hr : 0 ≤ r)
    (h1 : t.info.reg_limit ≤ t.info.rho) (h0 : 0 ≤ t.info.rho) :
    (proxRegUpdate e r t).info.rho ≤ t.info.rho := by
  unfold proxRegUpdate; dsimp only
  split_ifs <;> exact max_decay_le _ _ _ h1 (by linarith) h0

theorem proxReg_rho_pos (e : Env) (r : ℚ) (t : SState)
    (h : 0 < t.info.reg_limit) : 0 < (proxRegUpdate e r t).info.rho := by
  unfold proxRegUpdate; dsimp only
  split_ifs <;> exact lt_of_lt_of_le h (le_max_left _ _)

theorem proxReg_delta_le (e : Env) (r : ℚ) (t : SState) (hr : 0 ≤ r)
    (h1 : t.info.reg_limit ≤ t.info.delta) (h0 : 0 ≤ t.info.delta) :
    (proxRegUpdate e r t).info.delta ≤ t.info.delta := by
  unfold proxRegUpdate; dsimp only
  split_ifs <;> exact max_decay_le _ _ _ h1 (by linarith) h0

theorem proxReg_delta_pos (e : Env) (r : ℚ) (t : SState)
    (h : 0 < t.info.reg_limit) : 0 < (proxRegUpdate e r t).info.delta := by
  unfold proxRegUpdate; dsimp only
  split_ifs <;> exact lt_of_lt_of_le h (le_max_left _ _)

theorem proxReg0_rho_le (e : Env) (t : SState)
    (h1 : t.info.reg_limit ≤ t.info.rho) (h0 : 0 ≤ t.info.rho) :
    (proxRegUpdate0 e t).info.rho ≤ t.info.rho := by
  unfold proxRegUpdate0; dsimp only
  split_ifs <;> exact max_decay_le _ _ _ h1 (by linarith) h0

theorem proxReg0_rho_pos (e : Env) (t : SState)
    (h : 0 < t.info.reg_limit) : 0 < (proxRegUpdate0 e t).info.rho := by
  unfold proxRegUpdate0; dsimp only
  split_ifs <;> exact lt_of_lt_of_le h (le_max_left _ _)

theorem proxReg0_delta_le (e : Env) (t : SState)
    (h1 : t.info.reg_limit ≤ t.info.delta) (h0 : 0 ≤ t.info.delta) :
    (proxRegUpdate0 e t).info.delta ≤ t.info.delta := by
  unfold proxRegUpdate0; dsimp only
  split_ifs <;> exact max_decay_le _ _ _ h1 (by linarith) h0

theorem proxReg0_delta_pos (e : Env) (t : SState)
    (h : 0 < t.info.reg_limit) : 0 < (proxRegUpdate0 e t).info.delta := by
  unfold proxRegUpdate0; dsimp only
  split_ifs <;> exact lt_of_lt_of_le h (le_max_left _ _)

theorem innerUpdate_rho_le (e : Env) (t : SState) (hmu : 0 < t.info.mu)
    (h1 : t.info.reg_limit ≤ t.info.rho) (h0 : 0 ≤ t.info.rho) :
    (innerUpdate e t).info.rho ≤ t.info.rho := by
  unfold innerUpdate; dsimp only
  refine proxReg_rho_le e _ _ (div_nonneg (abs_nonneg _) hmu.le) ?_ ?_
  · rw [updateNr_info]; exact h1
  · rw [updateNr_info]; exact h0

theorem innerUpdate_rho_pos (e : Env) (t : SState) (h : 0 < t.info.reg_limit) :
    0 < (innerUpdate e t).info.rho := by
  unfold innerUpdate; dsimp only
  refine proxReg_rho_pos e _ _ ?_
  rw [updateNr_info]; exact h

theorem innerUpdate_delta_le (e : Env) (t : SState) (hmu : 0 < t.info.mu)
    (h1 : t.info.reg_limit ≤ t.info.delta) (h0 : 0 ≤ t.info.delta) :
    (innerUpdate e t).info.delta ≤ t.info.delta := by
  unfold innerUpdate; dsimp only
  refine proxReg_delta_le e _ _ (div_nonneg (abs_nonneg _) hmu.le) ?_ ?_
  · rw [updateNr_info]; exact h1
  · rw [updateNr_info]; exact h0

theorem innerUpdate_delta_pos (e : Env) (t : SState) (h : 0 < t.info.reg_limit) :
    0 < (innerUpdate e t).info.delta := by
  unfold innerUpdate; dsimp only
  refine proxReg_delta_pos e _ _ ?_
  rw [updateNr_info]; exact h

theorem fullStep_rho_le (e : Env) (t : SState)
    (h1 : t.info.reg_limit ≤ t.info.rho) (h0 : 0 ≤ t.info.rho) :
    (fullStepUpdate e t).info.rho ≤ t.info.rho := by
  unfold fullStepUpdate; dsimp only
  refine proxReg0_rho_le e _ ?_ ?_
  · rw [updateNr_info]; exact h1
  · rw [updateNr_info]; exact h0

theorem fullStep_rho_pos (e : Env) (t : SState) (h : 0 < t.info.reg_limit) :
    0 < (fullStepUpdate e t).info.rho := by
  unfold fullStepUpdate; dsimp only
  refine proxReg0_rho_pos e _ ?_
  rw [updateNr_info]; exact h

theorem fullStep_delta_le (e : Env) (t : SState)
    (h1 : t.info.reg_limit ≤ t.info.delta) (h0 : 0 ≤ t.info.delta) :
    (fullStepUpdate e t).info.delta ≤ t.info.delta := by
  unfold fullStepUpdate; dsimp only
  refine proxReg0_delta_le e _ ?_ ?_
  · rw [updateNr_info]; exact h1
  · rw [updateNr_info]; exact h0

theorem fullStep_delta_pos (e : Env) (t : SState) (h : 0 < t.info.reg_limit) :
    0 < (fullStepUpdate e t).info.delta := by
  unfold fullStepUpdate; dsimp only
  refine proxReg0_delta_pos e _ ?_
  rw [updateNr_info]; exact h

theorem postFactOk_rho (e : Env) (st : SState) :
    (postFactOk e st).info.rho = st.info.rho := by
  simp [postFactOk, preFactorState, stageScalings, iterInc_rho,
        regState, regResiduals, topState_info_eq]

theorem postFactOk_delta (e : Env) (st : SState) :
    (postFactOk e st).info.delta = st.info.delta := by
  simp [postFactOk, preFactorState, stageScalings, iterInc_delta,
        regState, regResiduals, topState_info_eq]

theorem postFactOk_mu (e : Env) (st : SState) :
    (postFactOk e st).info.mu = st.info.mu := by
  simp [postFactOk, preFactorState, stageScalings, iterInc_mu,
        regState, regResiduals, topState_info_eq]

theorem postFactOk_reg (e : Env) (st : SState) :
    (postFactOk e st).info.reg_limit = st.info.reg_limit ∨
    (postFactOk e st).info.reg_limit = regFloor := by
  have h1 : (postFactOk e st).info.reg_limit =
      (iterInc e (regState e st)).info.reg_limit := by
    simp [postFactOk, preFactorState, stageScalings]
  have h2 : (regState e st).info.reg_limit = st.info.reg_limit := by
    simp [regState, regResiduals, topState_info_eq]
  rcases iterInc_reg_limit e (regState e st) with h | h
  · left; rw [h1, h, h2]
  · right; rw [h1, h]

theorem regFloor_pos : 0 < regFloor := by norm_num [regFloor]


/-- C4: across a successful outer iteration (the factorisation call of the
pass succeeds) `rho` and `delta` are non-increasing and stay strictly
positive, under the reachable-state side conditions `0 < reg_limit ≤ rho,
delta`, `1e-13 ≤ rho, delta` (the stagnation relaxation can raise the
floor to `1e-13`), and `mu > 0` whenever inequalities are present; and the
only continuing pass that increases them is a factor-retry, where both are
multiplied by exactly 100. -/
theorem C4_regularisation_monotone :
    (∀ (e : Env) (st stx : SState),
       iterStep e st = .cont stx →
       e.kktFact (preFactorState e st).nFact = true →
       0 < st.info.reg_limit →
       st.info.reg_limit ≤ st.info.rho → st.info.reg_limit ≤ st.info.delta →
       regFloor ≤ st.info.rho → regFloor ≤ st.info.delta →
       (0 < e.data.m + e.data.n_lb + e.data.n_ub → 0 < st.info.mu) →
       stx.info.rho ≤ st.info.rho ∧ stx.info.delta ≤ st.info.delta ∧
         0 < stx.info.rho ∧ 0 < stx.info.delta) ∧
    (∀ (e : Env) (st stx : SState),
       iterStep e st = .cont stx →
       stx.info.factor_retires = st.info.factor_retires + 1 →
       stx.info.rho = 100 * st.info.rho ∧ stx.info.delta = 100 * st.info.delta) := by
  constructor
  · intro e st stx hstep hf hrl0 hrr hrd hfr hfd hmu
    rcases iterStep_cont_inv e st stx hstep with ⟨_, _, _, hcase⟩
    rcases hcase with ⟨_, hor⟩ | ⟨hf2, _, _⟩
    · have hreg := postFactOk_reg e st
      have h1r : (postFactOk e st).info.reg_limit ≤ (postFactOk e st).info.rho := by
        rw [postFactOk_rho]
        rcases hreg with h | h <;> rw [h]
        · exact hrr
        · exact hfr
      have h1d : (postFactOk e st).info.reg_limit ≤ (postFactOk e st).info.delta := by
        rw [postFactOk_delta]
        rcases hreg with h | h <;> rw [h]
        · exact hrd
        · exact hfd
      have h0r : (0:ℚ) ≤ (postFactOk e st).info.rho := by
        rw [postFactOk_rho]; linarith
      have h0d : (0:ℚ) ≤ (postFactOk e st).info.delta := by
        rw [postFactOk_delta]; linarith
      have hpos : 0 < (postFactOk e st).info.reg_limit := by
        rcases hreg with h | h <;> rw [h]
        · exact hrl0
        · exact regFloor_pos
      rcases hor with ⟨hNpos, he⟩ | ⟨_, he⟩
      · have hmu2 : 0 < (postFactOk e st).info.mu := by
          rw [postFactOk_mu]; exact hmu hNpos
        rw [he]
        refine ⟨?_, ?_, ?_, ?_⟩
        · calc (innerUpdate e (postFactOk e st)).info.rho ≤
                (postFactOk e st).info.rho := innerUpdate_rho_le e _ hmu2 h1r h0r
            _ = st.info.rho := postFactOk_rho e st
        · calc (innerUpdate e (postFactOk e st)).info.delta ≤
                (postFactOk e st).info.delta := innerUpdate_delta_le e _ hmu2 h1d h0d
            _ = st.info.delta := postFactOk_delta e st
        · exact innerUpdate_rho_pos e _ hpos
        · exact innerUpdate_delta_pos e _ hpos
      · rw [he]
        refine ⟨?_, ?_, ?_, ?_⟩
        · calc (fullStepUpdate e (postFactOk e st)).info.rho ≤
                (postFactOk e st).info.rho := fullStep_rho_le e _ h1r h0r
            _ = st.info.rho := postFactOk_rho e st
        · calc (fullStepUpdate e (postFactOk e st)).info.delta ≤
                (postFactOk e st).info.delta := fullStep_delta_le e _ h1d h0d
            _ = st.info.delta := postFactOk_delta e st
        · exact fullStep_rho_pos e _ hpos
        · exact fullStep_delta_pos e _ hpos
    · rw [hf] at hf2
      exact absurd hf2 (by simp)
  · intro e st stx hstep hret
    rcases iterStep_cont_inv e st stx hstep with ⟨_, _, _, hcase⟩
    rcases hcase with ⟨_, hor⟩ | ⟨_, _, he⟩
    · have h0 : stx.info.factor_retires = 0 := by
        rcases hor with ⟨_, he⟩ | ⟨_, he⟩ <;> rw [he]
        · rw [innerUpdate_retires, postFactOk_retires]
        · rw [fullStep_retires, postFactOk_retires]
      rw [h0] at hret
      exact absurd hret.symm (Nat.succ_ne_zero _)
    · rw [he]
      constructor
      · show (postFactFail e st).info.rho * 100 = 100 * st.info.rho
        rw [postFactFail_rho]; ring
      · show (postFactFail e st).info.delta * 100 = 100 * st.info.delta
        rw [postFactFail_delta]; ring

set_option maxRecDepth 4000 in
/-- C4 witness: a successful pass on the one-inequality instance shrinks
`rho`, `delta`; a failed factorisation on the empty instance inflates both
by 100. -/
theorem C4_witness :
    ((stepState (iterStep envM stM)).info.rho ≤ stM.info.rho ∧
     (stepState (iterStep envM stM)).info.delta ≤ stM.info.delta ∧
     0 < (stepState (iterStep envM stM)).info.rho ∧
     0 < (stepState (iterStep envM stM)).info.delta) ∧
    ((stepState (iterStep envN stMu1)).info.rho = 100 * stMu1.info.rho ∧
     (stepState (iterStep envN stMu1)).info.delta = 100 * stMu1.info.delta) := by
  constructor
  · exact C4_regularisation_monotone.1 envM stM (stepState (iterStep envM stM))
      (by with_unfolding_all rfl) (by with_unfolding_all decide)
      (by with_unfolding_all decide) (by with_unfolding_all decide)
      (by with_unfolding_all decide) (by with_unfolding_all decide)
      (by with_unfolding_all decide) (by with_unfolding_all decide)
  · exact C4_regularisation_monotone.2 envN stMu1 (stepState (iterStep envN stMu1))
      (by with_unfolding_all rfl) (by with_unfolding_all decide)


/-- C6 counterexample: with one generic inequality and one lower bound,
the initial solve returns slack norms `1` (generic) and `1e-5`
(lower-bound head).  One of the inequality slack norms is thus `<= 1e-4`,
inequalities are present, yet no reset to `0.1` happens: the generic slack
keeps the Newton value `1`.  The reset fires on the maximum of the three
norms, not when any single one is small. -/
theorem C6_counterexample :
    0 < envAny.data.m + envAny.data.n_lb + envAny.data.n_ub ∧
    infNorm (envAny.kktSolve st0.nSolve (initRhs envAny)).s_lb envAny.data.n_lb
      ≤ 1 / 10 ^ 4 ∧
    (initNewton envAny st0).s 0 = 1 ∧ ¬ (initNewton envAny st0).s 0 = 1 / 10 := by
  with_unfolding_all decide

/-- C6 (amended): on a cold start, the active parts of `s`, `s_lb`,
`s_ub`, `z`, `z_lb`, `z_ub` are set to `1` and passed to
`update_scalings` together with `rho_init`, `delta_init`; the initial
Newton solve uses the right-hand side `r_x = -c`, `r_y = b`, `r_z = h`,
`r_z_lb = x_lb_n`, `r_z_ub = x_ub`, `r_s = r_s_lb = r_s_ub = 0` and its
output overwrites the iterate; and when inequalities are present and the
MAXIMUM of the three slack infinity-norms (equivalently: every one of
them) is `<= 1e-4`, all active slack and inequality-dual parts are reset
to `0.1`, otherwise the Newton values are kept. -/
theorem C6_cold_start :
    (∀ (e : Env) (st : SState),
       (initScalings e st).staged_rho = e.set.rho_init ∧
       (initScalings e st).staged_delta = e.set.delta_init ∧
       (∀ i, (initScalings e st).staged_s i = 1) ∧
       (∀ i, i < e.data.n_lb → (initScalings e st).staged_s_lb i = 1) ∧
       (∀ i, i < e.data.n_ub → (initScalings e st).staged_s_ub i = 1) ∧
       (∀ i, (initScalings e st).staged_z i = 1) ∧
       (∀ i, i < e.data.n_lb → (initScalings e st).staged_z_lb i = 1) ∧
       (∀ i, i < e.data.n_ub → (initScalings e st).staged_z_ub i = 1)) ∧
    (∀ (e : Env) (i : ℕ),
       (initRhs e).rx i = -(e.data.c i) ∧ (initRhs e).ry i = e.data.b i ∧
       (initRhs e).rz i = e.data.h i ∧ (initRhs e).rz_lb i = e.data.x_lb_n i ∧
       (initRhs e).rz_ub i = e.data.x_ub i ∧ (initRhs e).rs i = 0 ∧
       (initRhs e).rs_lb i = 0 ∧ (initRhs e).rs_ub i = 0) ∧
    (∀ (e : Env) (st : SState),
       (initNewton e st).x = (e.kktSolve st.nSolve (initRhs e)).x ∧
       (initNewton e st).y = (e.kktSolve st.nSolve (initRhs e)).y ∧
       ((initNewton e st).z = (e.kktSolve st.nSolve (initRhs e)).z ∨
        (∀ i, (initNewton e st).z i = 1 / 10))) ∧
    (∀ (e : Env) (st : SState),
       0 < e.data.m + e.data.n_lb + e.data.n_ub →
       initSNorm e (e.kktSolve st.nSolve (initRhs e)) ≤ 1 / 10 ^ 4 →
       (∀ i, (initNewton e st).s i = 1 / 10) ∧
       (∀ i, i < e.data.n_lb → (initNewton e st).s_lb i = 1 / 10) ∧
       (∀ i, i < e.data.n_ub → (initNewton e st).s_ub i = 1 / 10) ∧
       (∀ i, (initNewton e st).z i = 1 / 10) ∧
       (∀ i, i < e.data.n_lb → (initNewton e st).z_lb i = 1 / 10) ∧
       (∀ i, i < e.data.n_ub → (initNewton e st).z_ub i = 1 / 10)) ∧
    (∀ (e : Env) (st : SState),
       ¬ (0 < e.data.m + e.data.n_lb + e.data.n_ub ∧
          initSNorm e (e.kktSolve st.nSolve (initRhs e)) ≤ 1 / 10 ^ 4) →
       (initNewton e st).s = (e.kktSolve st.nSolve (initRhs e)).s ∧
       (initNewton e st).s_lb = (e.kktSolve st.nSolve (initRhs e)).s_lb ∧
       (initNewton e st).s_ub = (e.kktSolve st.nSolve (initRhs e)).s_ub ∧
       (initNewton e st).z = (e.kktSolve st.nSolve (initRhs e)).z ∧
       (initNewton e st).z_lb = (e.kktSolve st.nSolve (initRhs e)).z_lb ∧
       (initNewton e st).z_ub = (e.kktSolve st.nSolve (initRhs e)).z_ub) := by
  refine ⟨?_, ?_, ?_, ?_, ?_⟩
  · intro e st
    refine ⟨rfl, rfl, fun i => rfl, fun i hi => ?_, fun i hi => ?_,
            fun i => rfl, fun i hi => ?_, fun i hi => ?_⟩ <;>
      simp [initScalings, stageScalings, setHead, hi]
  · intro e i
    exact ⟨rfl, rfl, rfl, rfl, rfl, rfl, rfl, rfl⟩
  · intro e st
    have hx : (initNewton e st).x = (e.kktSolve st.nSolve (initRhs e)).x := by
      unfold initNewton; dsimp only; split <;> rfl
    have hy : (initNewton e st).y = (e.kktSolve st.nSolve (initRhs e)).y := by
      unfold initNewton; dsimp only; split <;> rfl
    by_cases hc : 0 < e.data.m + e.data.n_lb + e.data.n_ub ∧
        initSNorm e (e.kktSolve st.nSolve (initRhs e)) ≤ 1 / 10 ^ 4
    · refine ⟨hx, hy, Or.inr fun i => ?_⟩
      unfold initNewton; dsimp only; rw [if_pos hc]
    · refine ⟨hx, hy, Or.inl ?_⟩
      unfold initNewton; dsimp only; rw [if_neg hc]
  · intro e st hN hsn
    have hc : 0 < e.data.m + e.data.n_lb + e.data.n_ub ∧
        initSNorm e (e.kktSolve st.nSolve (initRhs e)) ≤ 1 / 10 ^ 4 := ⟨hN, hsn⟩
    refine ⟨fun i => ?_, fun i hi => ?_, fun i hi => ?_,
            fun i => ?_, fun i hi => ?_, fun i hi => ?_⟩ <;>
      (unfold initNewton; dsimp only; rw [if_pos hc]; try simp [setHead, hi])
  · intro e st h
    refine ⟨?_, ?_, ?_, ?_, ?_, ?_⟩ <;>
      (unfold initNewton; dsimp only; rw [if_neg h])

/-- C6 witness: on the one-inequality instance with a zero initial solve
the safeguard fires (`s 0 = 0.1`) after the slacks were staged at `1`;
on the mixed instance the Newton slacks are kept. -/
theorem C6_witness :
    (initScalings envC6 st0).staged_s 5 = 1 ∧
    (initNewton envC6 st0).s 0 = 1 / 10 ∧
    (initNewton envAny st0).s = (envAny.kktSolve st0.nSolve (initRhs envAny)).s := by
  refine ⟨?_, ?_, ?_⟩
  · exact (C6_cold_start.1 envC6 st0).2.2.1 5
  · exact (C6_cold_start.2.2.2.1 envC6 st0 (by with_unfolding_all decide)
      (by with_unfolding_all decide)).1 0
  · exact ((C6_cold_start.2.2.2.2) envAny st0 (by with_unfolding_all decide)).1


/-- Unfolding one step of the sequential scatter. -/
theorem scatterV_succ (idx : ℕ → ℕ) (k : ℕ) (v : Vec) (i : ℕ) :
    scatterV idx (k + 1) v i = if idx k = i then v k else scatterV idx k v i := by
  unfold scatterV
  rw [List.range_succ, List.foldl_append]
  rfl

/-- With an injective index map the sequential scatter agrees with the
transposed-selection-matrix sum. -/
theorem scatterV_eq_spec (idx : ℕ → ℕ) (v : Vec) :
    ∀ k : ℕ, (∀ a b, a < k → b < k → idx a = idx b → a = b) →
      ∀ i, scatterV idx k v i = specScatter idx k v i := by
  intro k
  induction k with
  | zero => intro _ i; simp [scatterV, specScatter]
  | succ k ih =>
    intro hinj i
    have hinj2 : ∀ a b, a < k → b < k → idx a = idx b → a = b := fun a b ha hb h =>
      hinj a b (Nat.lt_succ_of_lt ha) (Nat.lt_succ_of_lt hb) h
    rw [scatterV_succ]
    unfold specScatter
    rw [Finset.sum_range_succ]
    by_cases hk : idx k = i
    · rw [if_pos hk, if_pos hk]
      have hz : (∑ j ∈ Finset.range k, if idx j = i then v j else 0) = 0 := by
        apply Finset.sum_eq_zero
        intro j hj
        rw [Finset.mem_range] at hj
        have hne : ¬ idx j = i := by
          intro hji
          have := hinj j k (Nat.lt_succ_of_lt hj) (Nat.lt_succ_self k)
            (hji.trans hk.symm)
          omega
        rw [if_neg hne]
      rw [hz, zero_add]
    · rw [if_neg hk, if_neg hk, add_zero]
      simpa [specScatter] using ih hinj2 i

/-- Scattering a negated vector negates the scatter. -/
theorem specScatter_neg (idx : ℕ → ℕ) (k : ℕ) (v : Vec) (i : ℕ) :
    specScatter idx k (fun j => -(v j)) i = -(specScatter idx k v i) := by
  unfold specScatter
  rw [← Finset.sum_neg_distrib]
  apply Finset.sum_congr rfl
  intro j _
  split <;> simp

/-- The reconstructed symmetric matrix acts as the sum of the stored upper
triangle and the strictly lower part of its transpose. -/
theorem mulMatVec_Pfull (M : Mat) (k : ℕ) (v : Vec) (i : ℕ) :
    mulMatVec (Pfull M) k v i =
      mulMatVec M k v i + mulMatVec (strictLowT M) k v i := by
  unfold mulMatVec Pfull
  rw [← Finset.sum_add_distrib]
  apply Finset.sum_congr rfl
  intro j _
  ring

/-- The accumulated `rx` row of `update_nr_residuals`, term by term. -/
theorem nrOf_rx (e : Env) (x y z z_lb z_ub s s_lb s_ub : Vec) (i : ℕ) :
    (nrOf e x y z z_lb z_ub s s_lb s_ub).rx i =
      -(mulMatVec e.data.P_utri e.data.n x i)
      - mulMatVec (strictLowT e.data.P_utri) e.data.n x i - e.data.c i
      - mulMatVec e.data.AT e.data.p y i - mulMatVec e.data.GT e.data.m z i
      - scatterV e.data.x_lb_idx e.data.n_lb (fun j => -(z_lb j)) i
      - scatterV e.data.x_ub_idx e.data.n_ub z_ub i := rfl

theorem nrOf_ry (e : Env) (x y z z_lb z_ub s s_lb s_ub : Vec) (i : ℕ) :
    (nrOf e x y z z_lb z_ub s s_lb s_ub).ry i =
      -(mulMatTVec e.data.AT e.data.n x i) + e.data.b i := rfl

theorem nrOf_rz (e : Env) (x y z z_lb z_ub s s_lb s_ub : Vec) (i : ℕ) :
    (nrOf e x y z z_lb z_ub s s_lb s_ub).rz i =
      -(mulMatTVec e.data.GT e.data.n x i) + (e.data.h i - s i) := rfl

theorem nrOf_rz_lb (e : Env) (x y z z_lb z_ub s s_lb s_ub : Vec) :
    (nrOf e x y z z_lb z_ub s s_lb s_ub).rz_lb =
      headVec (fun i => x (e.data.x_lb_idx i) + e.data.x_lb_n i - s_lb i)
        e.data.n_lb := rfl

theorem nrOf_rz_ub (e : Env) (x y z z_lb z_ub s s_lb s_ub : Vec) :
    (nrOf e x y z z_lb z_ub s s_lb s_ub).rz_ub =
      headVec (fun i => -(x (e.data.x_ub_idx i)) + e.data.x_ub i - s_ub i)
        e.data.n_ub := rfl

/-- C7 counterexample: one variable with one upper bound (`x_ub_idx = id`)
and `z_ub = 1`, everything else zero.  The code's `r_x_nr` carries the
upper-bound dual with a MINUS sign (`-1`), while the claimed formula
`… + E_ubᵀ z_ub` (with `E_ub` in the sign convention forced by the claimed
`r_z_ub_nr` row) yields `+1`. -/
theorem C7_counterexample :
    (updateNrResiduals envUb stUb).rx_nr 0 = -1 ∧
    claimRxFormula envUb stUb 0 = 1 ∧
    ¬ ((updateNrResiduals envUb stUb).rx_nr 0 = claimRxFormula envUb stUb 0) := by
  with_unfolding_all decide

/-- C7 (amended): with injective index maps, `update_nr_residuals`
computes `r_x_nr = -P x - c - Aᵀ y - Gᵀ z + S_lbᵀ z_lb - S_ubᵀ z_ub`
(`S_lb`, `S_ub` the plain selection matrices: the lower-bound duals enter
with PLUS, the upper-bound duals with MINUS), `r_y_nr = b - A x`,
`r_z_nr = h - G x - s`, `r_z_lb_nr[i] = x[x_lb_idx[i]] + x_lb_n[i] -
s_lb[i]` and `r_z_ub_nr[i] = -x[x_ub_idx[i]] + x_ub[i] - s_ub[i]` for all
`i` below `n_lb` / `n_ub`. -/
theorem C7_residual_formulas :
    (∀ (e : Env) (st : SState),
       (∀ a b, a < e.data.n_lb → b < e.data.n_lb →
          e.data.x_lb_idx a = e.data.x_lb_idx b → a = b) →
       (∀ a b, a < e.data.n_ub → b < e.data.n_ub →
          e.data.x_ub_idx a = e.data.x_ub_idx b → a = b) →
       ∀ i, (updateNrResiduals e st).rx_nr i = rxNrFormula e st i) ∧
    (∀ (e : Env) (st : SState) (i : ℕ),
       (updateNrResiduals e st).ry_nr i =
         e.data.b i - mulMatTVec e.data.AT e.data.n st.x i) ∧
    (∀ (e : Env) (st : SState) (i : ℕ),
       (updateNrResiduals e st).rz_nr i =
         e.data.h i - mulMatTVec e.data.GT e.data.n st.x i - st.s i) ∧
    (∀ (e : Env) (st : SState) (i : ℕ), i < e.data.n_lb →
       (updateNrResiduals e st).rz_lb_nr i =
         st.x (e.data.x_lb_idx i) + e.data.x_lb_n i - st.s_lb i) ∧
    (∀ (e : Env) (st : SState) (i : ℕ), i < e.data.n_ub →
       (updateNrResiduals e st).rz_ub_nr i =
         -(st.x (e.data.x_ub_idx i)) + e.data.x_ub i - st.s_ub i) := by
  refine ⟨?_, ?_, ?_, ?_, ?_⟩
  · intro e st hlb hub i
    rw [updateNr_rx_nr, nrOf_rx,
        scatterV_eq_spec e.data.x_lb_idx (fun j => -(st.z_lb j)) e.data.n_lb hlb i,
        scatterV_eq_spec e.data.x_ub_idx st.z_ub e.data.n_ub hub i,
        specScatter_neg]
    unfold rxNrFormula
    rw [mulMatVec_Pfull]
    ring
  · intro e st i
    rw [updateNr_ry_nr, nrOf_ry]
    ring
  · intro e st i
    rw [updateNr_rz_nr, nrOf_rz]
    ring
  · intro e st i hi
    rw [updateNr_rz_lb_nr]
    dsimp only
    rw [if_pos hi, nrOf_rz_lb]
    unfold headVec
    rw [if_pos hi]
  · intro e st i hi
    rw [updateNr_rz_ub_nr]
    dsimp only
    rw [if_pos hi, nrOf_rz_ub]
    unfold headVec
    rw [if_pos hi]

/-- C7 witness: the corrected `r_x_nr` formula and the `r_z_ub_nr` row on
the one-upper-bound instance. -/
theorem C7_witness :
    (updateNrResiduals envUb stUb).rx_nr 0 = rxNrFormula envUb stUb 0 ∧
    (updateNrResiduals envUb stUb).rz_ub_nr 0 =
      -(stUb.x (envUb.data.x_ub_idx 0)) + envUb.data.x_ub 0 - stUb.s_ub 0 := by
  constructor
  · exact C7_residual_formulas.1 envUb stUb
      (by
        intro a b ha hb hh
        exact absurd (show a < 0 from ha) (Nat.not_lt_zero a))
      (by
        intro a b ha hb hh
        have ha2 : a < 1 := ha
        have hb2 : b < 1 := hb
        omega) 0
  · exact C7_residual_formulas.2.2.2.2 envUb stUb 0 (by decide)


/-- The lower-bound setup fold, with an arbitrary accumulator: it appends
the filtered scan of the remaining indices. -/
theorem setup_lb_fold (v : Vec) :
    ∀ (l : List ℕ) (as : List ℚ) (bs : List ℕ),
      l.foldl
        (fun acc i => if -PIQP_INF < v i then (acc.1 ++ [-(v i)], acc.2 ++ [i]) else acc)
        (as, bs) =
      (as ++ ((l.filter fun i => decide (-PIQP_INF < v i)).map fun i => -(v i)),
       bs ++ (l.filter fun i => decide (-PIQP_INF < v i))) := by
  intro l
  induction l with
  | nil => intro as bs; simp
  | cons a l ih =>
    intro as bs
    by_cases hp : -PIQP_INF < v a
    · rw [List.foldl_cons, if_pos hp, ih]
      simp [List.filter_cons, hp]
    · rw [List.foldl_cons, if_neg hp, ih]
      simp [List.filter_cons, hp]

/-- The upper-bound setup fold, with an arbitrary accumulator. -/
theorem setup_ub_fold (v : Vec) :
    ∀ (l : List ℕ) (as : List ℚ) (bs : List ℕ),
      l.foldl
        (fun acc i => if v i < PIQP_INF then (acc.1 ++ [v i], acc.2 ++ [i]) else acc)
        (as, bs) =
      (as ++ ((l.filter fun i => decide (v i < PIQP_INF)).map v),
       bs ++ (l.filter fun i => decide (v i < PIQP_INF))) := by
  intro l
  induction l with
  | nil => intro as bs; simp
  | cons a l ih =>
    intro as bs
    by_cases hp : v a < PIQP_INF
    · rw [List.foldl_cons, if_pos hp, ih]
      simp [List.filter_cons, hp]
    · rw [List.foldl_cons, if_neg hp, ih]
      simp [List.filter_cons, hp]

/-- Closed form of `setup_lb_data` on supplied bounds. -/
theorem setup_lb_eq (n : ℕ) (v : Vec) :
    setup_lb_data n (some v) =
      (((List.range n).filter fun i => decide (-PIQP_INF < v i)).map (fun i => -(v i)),
       (List.range n).filter fun i => decide (-PIQP_INF < v i)) := by
  simp only [setup_lb_data]
  rw [setup_lb_fold v (List.range n) [] []]
  simp

/-- Closed form of `setup_ub_data` on supplied bounds. -/
theorem setup_ub_eq (n : ℕ) (v : Vec) :
    setup_ub_data n (some v) =
      (((List.range n).filter fun i => decide (v i < PIQP_INF)).map v,
       (List.range n).filter fun i => decide (v i < PIQP_INF)) := by
  simp only [setup_ub_data]
  rw [setup_ub_fold v (List.range n) [] []]
  simp

/-- C8: after setup with a supplied length-`n` bound vector, `n_lb` (the
length of the stored lists) counts the entries strictly above `-PIQP_INF`,
the stored values are the negations of the bounds at the stored indices,
the index list is strictly increasing, and an index is stored exactly when
it is below `n` with a strictly finite bound; symmetrically for the upper
side (entries strictly below `PIQP_INF`, stored un-negated). -/
theorem C8_bound_setup :
    ∀ (n : ℕ) (v : Vec),
      ((setup_lb_data n (some v)).2.length =
         (List.range n).countP (fun i => decide (-PIQP_INF < v i)) ∧
       (setup_lb_data n (some v)).1.length = (setup_lb_data n (some v)).2.length ∧
       (setup_lb_data n (some v)).1 =
         (setup_lb_data n (some v)).2.map (fun i => -(v i)) ∧
       (setup_lb_data n (some v)).2.Pairwise (· < ·) ∧
       (∀ i, i ∈ (setup_lb_data n (some v)).2 ↔ i < n ∧ -PIQP_INF < v i)) ∧
      ((setup_ub_data n (some v)).2.length =
         (List.range n).countP (fun i => decide (v i < PIQP_INF)) ∧
       (setup_ub_data n (some v)).1.length = (setup_ub_data n (some v)).2.length ∧
       (setup_ub_data n (some v)).1 = (setup_ub_data n (some v)).2.map v ∧
       (setup_ub_data n (some v)).2.Pairwise (· < ·) ∧
       (∀ i, i ∈ (setup_ub_data n (some v)).2 ↔ i < n ∧ v i < PIQP_INF)) := by
  intro n v
  constructor
  · refine ⟨?_, ?_, ?_, ?_, ?_⟩
    · rw [setup_lb_eq]
      exact (List.countP_eq_length_filter _ _).symm
    · rw [setup_lb_eq]
      simp
    · rw [setup_lb_eq]
    · rw [setup_lb_eq]
      exact List.Pairwise.sublist (List.filter_sublist _) (List.pairwise_lt_range n)
    · intro i
      rw [setup_lb_eq]
      simp [List.mem_filter, List.mem_range]
  · refine ⟨?_, ?_, ?_, ?_, ?_⟩
    · rw [setup_ub_eq]
      exact (List.countP_eq_length_filter _ _).symm
    · rw [setup_ub_eq]
      simp
    · rw [setup_ub_eq]
    · rw [setup_ub_eq]
      exact List.Pairwise.sublist (List.filter_sublist _) (List.pairwise_lt_range n)
    · intro i
      rw [setup_ub_eq]
      simp [List.mem_filter, List.mem_range]


/-- Peeling the first (highest-index) swap of the reverse-order pass. -/
theorem swapFold_succ {α : Type} (idx : ℕ → ℕ) (k : ℕ) (g : ℕ → α) :
    swapFold idx (k + 1) g = swapFold idx k (swapF g k (idx k)) := by
  unfold swapFold
  rw [List.range_succ, List.reverse_append]
  rfl

/-- A position never named by the remaining swaps keeps its value. -/
theorem swapFold_untouched {α : Type} (idx : ℕ → ℕ) :
    ∀ (k : ℕ) (f : ℕ → α) (p : ℕ), (∀ j, j < k → p ≠ j ∧ p ≠ idx j) →
      swapFold idx k f p = f p := by
  intro k
  induction k with
  | zero => intro f p _; rfl
  | succ k ih =>
    intro f p hp
    rw [swapFold_succ, ih _ p (fun j hj => hp j (Nat.lt_succ_of_lt hj))]
    have h1 := hp k (Nat.lt_succ_self k)
    unfold swapF
    rw [if_neg h1.1, if_neg h1.2]

/-- A strictly increasing index map dominates the identity. -/
theorem idx_ge_of_mono (idx : ℕ → ℕ) (k : ℕ)
    (hmono : ∀ a b, a < b → b < k → idx a < idx b) :
    ∀ j, j < k → j ≤ idx j := by
  intro j
  induction j with
  | zero => intro _; exact Nat.zero_le _
  | succ j ih =>
    intro hj
    have h1 : j ≤ idx j := ih (Nat.lt_of_succ_lt hj)
    have h2 : idx j < idx (j + 1) := hmono j (j + 1) (Nat.lt_succ_self j) hj
    omega

/-- The reverse-order swap pass sends compressed slot `i` to dense
position `idx i`. -/
theorem swapFold_idx {α : Type} (idx : ℕ → ℕ) :
    ∀ (k : ℕ) (g : ℕ → α), (∀ a b, a < b → b < k → idx a < idx b) →
      ∀ i, i < k → swapFold idx k g (idx i) = g i := by
  intro k
  induction k with
  | zero => intro g _ i hi; exact absurd hi (Nat.not_lt_zero i)
  | succ k ih =>
    intro g hmono i hi
    have hmono2 : ∀ a b, a < b → b < k → idx a < idx b := fun a b hab hb =>
      hmono a b hab (Nat.lt_succ_of_lt hb)
    have hle := idx_ge_of_mono idx (k + 1) hmono
    rw [swapFold_succ]
    by_cases hik : i = k
    · rw [hik]
      rw [swapFold_untouched idx k _ (idx k) ?_]
      · unfold swapF
        by_cases h : idx k = k
        · rw [if_pos h, h]
        · rw [if_neg h, if_pos rfl]
      · intro j hj
        have ha := hle k (Nat.lt_succ_self k)
        have hb := hmono j k hj (Nat.lt_succ_self k)
        exact ⟨by omega, by omega⟩
    · have hik2 : i < k := by omega
      rw [ih _ hmono2 i hik2]
      unfold swapF
      have h2 : i ≠ idx k := by
        have := hle k (Nat.lt_succ_self k)
        omega
      rw [if_neg hik, if_neg h2]

/-- The restored vector holds compressed value `i` at dense position
`idx i`. -/
theorem restoreVec_idx {α : Type} (idx : ℕ → ℕ) (k : ℕ) (fill : α) (v : ℕ → α)
    (hmono : ∀ a b, a < b → b < k → idx a < idx b) :
    ∀ i, i < k → restoreVec idx k fill v (idx i) = v i := by
  intro i hi
  unfold restoreVec
  rw [swapFold_idx idx k _ hmono i hi, if_pos hi]

/-- Positions outside the live head and never named by the index map hold
the fill value. -/
theorem restoreVec_untouched {α : Type} (idx : ℕ → ℕ) (k : ℕ) (fill : α)
    (v : ℕ → α) (p : ℕ) (hp : k ≤ p) (hni : ∀ j, j < k → p ≠ idx j) :
    restoreVec idx k fill v p = fill := by
  unfold restoreVec
  rw [swapFold_untouched idx k _ p (fun j hj => ⟨by omega, hni j hj⟩),
      if_neg (by omega)]

/-- C9: with a strictly increasing index map (as produced by setup),
`restore_box_dual` puts the `i`-th compressed value of each of `z_lb`,
`nu_lb`, `s_lb` at dense position `x_lb_idx i` for every `i < n_lb`, and
every dense position outside the live head that the index map never names
holds the tail fill: `0` for `z_lb`, `nu_lb` and `+inf` for `s_lb`;
symmetrically for the `ub` side. -/
theorem C9_box_dual_restore :
    (∀ (e : Env) (st : SState),
       (∀ a b, a < b → b < e.data.n_lb → e.data.x_lb_idx a < e.data.x_lb_idx b) →
       ∀ i, i < e.data.n_lb →
         (restore_box_dual e st).z_lb (e.data.x_lb_idx i) = st.z_lb i ∧
         (restore_box_dual e st).nu_lb (e.data.x_lb_idx i) = st.nu_lb i ∧
         (restore_box_dual e st).s_lb (e.data.x_lb_idx i) = st.s_lb i) ∧
    (∀ (e : Env) (st : SState),
       (∀ a b, a < b → b < e.data.n_ub → e.data.x_ub_idx a < e.data.x_ub_idx b) →
       ∀ i, i < e.data.n_ub →
         (restore_box_dual e st).z_ub (e.data.x_ub_idx i) = st.z_ub i ∧
         (restore_box_dual e st).nu_ub (e.data.x_ub_idx i) = st.nu_ub i ∧
         (restore_box_dual e st).s_ub (e.data.x_ub_idx i) = st.s_ub i) ∧
    (∀ (e : Env) (st : SState) (p : ℕ),
       e.data.n_lb ≤ p → (∀ j, j < e.data.n_lb → p ≠ e.data.x_lb_idx j) →
       (restore_box_dual e st).z_lb p = 0 ∧
       (restore_box_dual e st).nu_lb p = 0 ∧
       (restore_box_dual e st).s_lb p = e.sInf) ∧
    (∀ (e : Env) (st : SState) (p : ℕ),
       e.data.n_ub ≤ p → (∀ j, j < e.data.n_ub → p ≠ e.data.x_ub_idx j) →
       (restore_box_dual e st).z_ub p = 0 ∧
       (restore_box_dual e st).nu_ub p = 0 ∧
       (restore_box_dual e st).s_ub p = e.sInf) := by
  refine ⟨?_, ?_, ?_, ?_⟩
  · intro e st hmono i hi
    exact ⟨restoreVec_idx _ _ _ _ hmono i hi, restoreVec_idx _ _ _ _ hmono i hi,
           restoreVec_idx _ _ _ _ hmono i hi⟩
  · intro e st hmono i hi
    exact ⟨restoreVec_idx _ _ _ _ hmono i hi, restoreVec_idx _ _ _ _ hmono i hi,
           restoreVec_idx _ _ _ _ hmono i hi⟩
  · intro e st p hp hni
    exact ⟨restoreVec_untouched _ _ _ _ p hp hni,
           restoreVec_untouched _ _ _ _ p hp hni,
           restoreVec_untouched _ _ _ _ p hp hni⟩
  · intro e st p hp hni
    exact ⟨restoreVec_untouched _ _ _ _ p hp hni,
           restoreVec_untouched _ _ _ _ p hp hni,
           restoreVec_untouched _ _ _ _ p hp hni⟩

/-- C9 witness: on the one-upper-bound instance the live value lands at
its dense position, and an unnamed lower-bound position reads the `0`
fill. -/
theorem C9_witness :
    (restore_box_dual envUb stUb).z_ub (envUb.data.x_ub_idx 0) = stUb.z_ub 0 ∧
    (restore_box_dual envUb stUb).z_lb 5 = 0 := by
  constructor
  · exact (C9_box_dual_restore.2.1 envUb stUb
      (fun a b hab hb => hab) 0 (by decide)).1
  · exact (C9_box_dual_restore.2.2.1 envUb stUb 5 (by decide)
      (fun j hj => absurd (show j < 0 from hj) (Nat.not_lt_zero j))).1


/-- C10: the public `solve` applies `unscale_results` and
`restore_box_dual` to the stored result unconditionally after the inner
solve returns — also on the early `UNSOLVED` (not set up) and
`INVALID_SETTINGS` returns; hence an erroring solve is not atomic.  On
the never-set-up solver holding `z_lb = (5, 7)` from a previous solve
with `x_lb_idx 0 = 1`, the call returns `UNSOLVED` yet overwrites
`z_lb 0` with the restored tail fill `0`. -/
theorem C10_postprocessing_unconditional :
    (∀ (e : Env) (st : SState),
       solve e st = ((solve_impl e st).1,
         restore_box_dual e (unscaleResults e (solve_impl e st).2))) ∧
    (∀ (e : Env) (st : SState), st.setup_done = false →
       solve e st = (.UNSOLVED,
         restore_box_dual e (unscaleResults e (setStatus st .UNSOLVED)))) ∧
    (∀ (e : Env) (st : SState), st.setup_done = true → e.set.verify = false →
       solve e st = (.INVALID_SETTINGS,
         restore_box_dual e (unscaleResults e (setStatus st .INVALID_SETTINGS)))) ∧
    ((solve envMut stMut).1 = .UNSOLVED ∧ stMut.z_lb 0 = 5 ∧
     ¬ (solve envMut stMut).2.z_lb 0 = 5 ∧ (solve envMut stMut).2.z_lb 0 = 0) := by
  refine ⟨?_, ?_, ?_, ?_⟩
  · intro e st
    rfl
  · intro e st h
    have h1 : solve_impl e st = (.UNSOLVED, setStatus st .UNSOLVED) := by
      unfold solve_impl
      rw [if_pos h]
    unfold solve
    dsimp only
    rw [h1]
  · intro e st hs hv
    have h1 : solve_impl e st = (.INVALID_SETTINGS, setStatus st .INVALID_SETTINGS) := by
      unfold solve_impl
      rw [if_neg (by simp [hs]), if_pos hv]
    unfold solve
    dsimp only
    rw [h1]
  · with_unfolding_all decide

/-- C10 witness: the early-return equations at the concrete never-set-up
and invalid-settings solvers. -/
theorem C10_witness :
    solve envMut stMut = (.UNSOLVED,
      restore_box_dual envMut (unscaleResults envMut (setStatus stMut .UNSOLVED))) ∧
    solve envBad st0 = (.INVALID_SETTINGS,
      restore_box_dual envBad (unscaleResults envBad (setStatus st0 .INVALID_SETTINGS))) := by
  constructor
  · exact C10_postprocessing_unconditional.2.1 envMut stMut (by with_unfolding_all decide)
  · exact C10_postprocessing_unconditional.2.2.1 envBad st0
      (by with_unfolding_all decide) (by with_unfolding_all decide)

end Piqp
